import Mathlib

/-!
Verification of the rotating-slot persistent record store of the
FRAM_MB85RS64 repository (file fram_store.h, namespace fram_store).

The development shallowly embeds the store: machine integers become `Nat`
with explicit `% 2 ^ w` where overflow matters, the backing FRAM device
becomes a byte-addressed memory `Nat → Nat` together with per-call error
oracles for reads and writes (an I/O failure of call number `k` is decided
by the oracle at `k`; a failed read exposes arbitrary garbage bytes, which
models the C++ buffer staying uninitialized), and each method of
`fram_store::Persistent<T>` becomes a Lean function threading the world,
the in-memory cache state and the call counters explicitly.
-/

namespace FramStore

/-- esp_err_t success code. -/
def ESP_OK : Nat := 0

/-- esp_err_t code ESP_ERR_NOT_FOUND (0x105). -/
def ESP_ERR_NOT_FOUND : Nat := 0x105

/-! ## Record codec: header layout and CRC-32 (fram_store.h lines 22-53) -/

/-- The on-media record header, fram_store.h lines 23-30 (packed struct). -/
structure Header where
  magic : Nat
  version : Nat
  reserved : Nat
  seq : Nat
  len : Nat
  crc : Nat
deriving DecidableEq, Repr

/-- The fixed sentinel STORE_MAGIC = 0x4652414D. -/
def STORE_MAGIC : Nat := 0x4652414D

/-- One feedback step of the reflected CRC-32 LFSR:
source line 43, `c = (c & 1) ? (0xEDB88320u ^ (c >> 1)) : (c >> 1)`. -/
def crcStep (c : Nat) : Nat :=
  if c &&& 1 = 1 then 0xEDB88320 ^^^ (c >>> 1) else c >>> 1

/-- Eight feedback steps: the inner `for j` loop of source lines 42-43. -/
def crcStep8 (c : Nat) : Nat :=
  crcStep (crcStep (crcStep (crcStep (crcStep (crcStep (crcStep (crcStep c)))))))

/-- Entry `i` of the CRC table built at source lines 40-45:
start from `i` and run eight feedback steps. -/
def crcTableEntry (i : Nat) : Nat := crcStep8 i

/-- One byte of the table-driven CRC update, source line 51:
`c = table[(c ^ p[i]) & 0xFFu] ^ (c >> 8)`. -/
def crcByteStep (c b : Nat) : Nat :=
  crcTableEntry ((c ^^^ b) &&& 0xFF) ^^^ (c >>> 8)

/-- The CRC accumulator loop of source lines 48-51, seeded with `c`. -/
def crc32Aux (c : Nat) (bs : List Nat) : Nat :=
  bs.foldl crcByteStep c

/-- `crc32` of fram_store.h lines 35-53: seed 0xFFFFFFFF, table-driven
update per byte, output XORed with 0xFFFFFFFF. -/
def crc32 (bs : List Nat) : Nat :=
  crc32Aux 0xFFFFFFFF bs ^^^ 0xFFFFFFFF

/-- Modelled from the spec (section 4.1): the reference bitwise CRC-32 with
reflected polynomial 0xEDB88320, initial value 0xFFFFFFFF and final XOR
0xFFFFFFFF; each input byte is XORed into the accumulator and followed by
eight LFSR feedback steps.  This definition follows the spec's words and is
compared with the table-driven `crc32` taken from the source. -/
def crc32_reference (bs : List Nat) : Nat :=
  bs.foldl (fun c b => crcStep8 (c ^^^ b)) 0xFFFFFFFF ^^^ 0xFFFFFFFF

/-! ## Byte-level serialization of the packed header (little-endian) -/

/-- Two little-endian bytes of a 16-bit field. -/
def le16 (v : Nat) : List Nat := [v % 256, v / 256 % 256]

/-- Four little-endian bytes of a 32-bit field. -/
def le32 (v : Nat) : List Nat :=
  [v % 256, v / 256 % 256, v / 65536 % 256, v / 16777216 % 256]

/-- sizeof(Header) for the packed layout of fram_store.h lines 22-31:
4 + 2 + 2 + 4 + 4 + 4 = 20 bytes. -/
def headerSize : Nat := 20

/-- The 20 bytes of a header as laid out in memory on the (little-endian)
target: magic, version, reserved, seq, len, crc. -/
def encodeHeader (h : Header) : List Nat :=
  le32 h.magic ++ le16 h.version ++ le16 h.reserved ++
    le32 h.seq ++ le32 h.len ++ le32 h.crc

/-- Read a 16-bit little-endian field at offset `i` of a byte list. -/
def get16 (bs : List Nat) (i : Nat) : Nat :=
  bs.getD i 0 % 256 + bs.getD (i + 1) 0 % 256 * 256

/-- Read a 32-bit little-endian field at offset `i` of a byte list. -/
def get32 (bs : List Nat) (i : Nat) : Nat :=
  bs.getD i 0 % 256 + bs.getD (i + 1) 0 % 256 * 256 +
    bs.getD (i + 2) 0 % 256 * 65536 + bs.getD (i + 3) 0 % 256 * 16777216

/-- Reinterpret 20 bytes as a packed `Header`. -/
def decodeHeader (bs : List Nat) : Header :=
  { magic := get32 bs 0
    version := get16 bs 4
    reserved := get16 bs 6
    seq := get32 bs 8
    len := get32 bs 12
    crc := get32 bs 16 }

/-! ## The backing byte-range store (the FRAM device, abstract per spec) -/

/-- The state of the backing store together with its failure model.
`mem` holds the byte at each address, `readErr k` is the esp_err_t status
of the `k`-th read call (0 = success), `writeErr k` likewise for writes,
and `garbage k o` is the byte observed at offset `o` of the destination
buffer when read call `k` fails (the C++ buffer is left uninitialized on a
failed read, so its contents are arbitrary). -/
structure World where
  mem : Nat → Nat
  readErr : Nat → Nat
  writeErr : Nat → Nat
  garbage : Nat → Nat → Nat

/-- The `n` bytes of memory starting at address `a` (as 8-bit values). -/
def memBytes (m : Nat → Nat) (a n : Nat) : List Nat :=
  (List.range n).map (fun i => m (a + i) % 256)

/-- The garbage bytes exposed by failed read call `k`. -/
def garbageBytes (w : World) (k n : Nat) : List Nat :=
  (List.range n).map (fun i => w.garbage k i % 256)

/-- `fram.read(a, buf, n)` as read call number `rc`: returns the status,
the observed buffer contents and the next read-call counter. -/
def framRead (w : World) (rc a n : Nat) : Nat × List Nat × Nat :=
  if w.readErr rc = 0 then (0, memBytes w.mem a n, rc + 1)
  else (w.readErr rc, garbageBytes w rc n, rc + 1)

/-- Overwrite memory `m` with the bytes `bs` starting at address `a`. -/
def writeBytes (m : Nat → Nat) (a : Nat) (bs : List Nat) : Nat → Nat :=
  fun x => if a ≤ x ∧ x < a + bs.length then bs.getD (x - a) 0 else m x

/-- `fram.write(a, buf, n)` as write call number `wc`: returns the status,
the new world and the next write-call counter.  A failed write leaves the
memory unchanged (the spec treats a single write as atomic at the
byte-range level). -/
def framWrite (w : World) (wc a : Nat) (bs : List Nat) : Nat × World × Nat :=
  if w.writeErr wc = 0 then
    (0, { w with mem := writeBytes w.mem a bs }, wc + 1)
  else (w.writeErr wc, w, wc + 1)

/-! ## The store instance: configuration and in-memory state -/

/-- The configuration bound by the `Persistent` constructor
(fram_store.h lines 66-72): base address, slot count, version tag and the
payload size sizeof(T). -/
structure Config where
  base : Nat
  slots : Nat
  version : Nat
  payloadSize : Nat

/-- slot_size_ = sizeof(Header) + sizeof(T). -/
def slotSize (cfg : Config) : Nat := headerSize + cfg.payloadSize

/-- The address of slot `i`: base_ + i * slot_size_. -/
def slotAddr (cfg : Config) (i : Nat) : Nat := cfg.base + i * slotSize cfg

/-- The mutable per-instance members of `Persistent`: cache_ (the payload
bytes of T), dirty_ and last_seq_. -/
structure PState where
  cache : List Nat
  dirty : Bool
  last_seq : Nat
deriving DecidableEq, Repr

/-! ## load (fram_store.h lines 75-98) -/

/-- One iteration of load's scan loop (source lines 80-93) for slot `i`,
threading the best candidate (header and slot address) and the read-call
counter: read the header (a failure skips the slot), check magic, version
and len, read the payload (a failure skips the slot), check the CRC, and
keep the candidate if it is the first or has a strictly larger seq. -/
def loadSlotStep (w : World) (cfg : Config)
    (st : Option (Header × Nat) × Nat) (i : Nat) :
    Option (Header × Nat) × Nat :=
  let a := slotAddr cfg i
  let r := framRead w st.2 a headerSize
  if r.1 ≠ 0 then (st.1, r.2.2)
  else
    let h := decodeHeader r.2.1
    if h.magic ≠ STORE_MAGIC ∨ h.version ≠ cfg.version ∨ h.len ≠ cfg.payloadSize
    then (st.1, r.2.2)
    else
      let p := framRead w r.2.2 (a + headerSize) h.len
      if p.1 ≠ 0 then (st.1, p.2.2)
      else if crc32 p.2.1 ≠ h.crc then (st.1, p.2.2)
      else
        match st.1 with
        | none => (some (h, a), p.2.2)
        | some (bh, ba) =>
            if h.seq > bh.seq then (some (h, a), p.2.2)
            else (some (bh, ba), p.2.2)

/-- `Persistent::load` (source lines 75-98): scan all slots, then re-read
the payload of the best valid slot into the caller's buffer, propagating
the status of that final read.  Returns the esp_err_t status, the
caller-visible output buffer (dst0 when not overwritten) and the final
read-call counter. -/
def load (w : World) (cfg : Config) (rc : Nat) (dst0 : List Nat) :
    Nat × List Nat × Nat :=
  let s := (List.range cfg.slots).foldl (loadSlotStep w cfg) (none, rc)
  match s.1 with
  | none => (ESP_ERR_NOT_FOUND, dst0, s.2)
  | some (_, ba) =>
      let r := framRead w s.2 (ba + headerSize) cfg.payloadSize
      if r.1 = 0 then (0, r.2.1, r.2.2) else (r.1, dst0, r.2.2)

/-! ## store_immediate (fram_store.h lines 101-143) -/

/-- One iteration of store_immediate's scan loop (source lines 106-117)
for slot `i`: the header read's status is discarded (`(void)fram_.read`),
so on a failed read the uninitialized buffer contents (garbage) are
decoded and compared; a slot is a candidate when magic and version match
(CRC and len are not checked), and the candidate with the largest seq is
kept. -/
def scanStep (w : World) (cfg : Config)
    (st : Option (Header × Nat) × Nat) (i : Nat) :
    Option (Header × Nat) × Nat :=
  let a := slotAddr cfg i
  let r := framRead w st.2 a headerSize
  let h := decodeHeader r.2.1
  if h.magic = STORE_MAGIC ∧ h.version = cfg.version then
    match st.1 with
    | none => (some (h, a), r.2.2)
    | some (bh, ba) =>
        if h.seq > bh.seq then (some (h, a), r.2.2)
        else (some (bh, ba), r.2.2)
  else (st.1, r.2.2)

/-- The best candidate found by store_immediate's scan (source lines
102-117), starting at read-call counter `rc`. -/
def scanBest (w : World) (cfg : Config) (rc : Nat) : Option (Header × Nat) :=
  ((List.range cfg.slots).foldl (scanStep w cfg) (none, rc)).1

/-- The read-call counter after store_immediate's scan. -/
def scanRc (w : World) (cfg : Config) (rc : Nat) : Nat :=
  ((List.range cfg.slots).foldl (scanStep w cfg) (none, rc)).2

/-- next_seq of source line 118: best seq + 1 in uint32 arithmetic, or 1
when no candidate exists. -/
def nextSeq (w : World) (cfg : Config) (rc : Nat) : Nat :=
  match scanBest w cfg rc with
  | none => 1
  | some (bh, _) => (bh.seq + 1) % 2 ^ 32

/-- The target slot address of source lines 120-122:
`((best_addr - base_) / slot_size_ + 1) % slots_ * slot_size_ + base_`,
or base_ when no candidate exists. -/
def nextAddr (w : World) (cfg : Config) (rc : Nat) : Nat :=
  match scanBest w cfg rc with
  | none => cfg.base
  | some (_, ba) =>
      ((ba - cfg.base) / slotSize cfg + 1) % cfg.slots * slotSize cfg + cfg.base

/-- The header built at source lines 124-130 for the new generation. -/
def newHeader (w : World) (cfg : Config) (rc : Nat) (src : List Nat) : Header :=
  { magic := STORE_MAGIC
    version := cfg.version
    reserved := 0
    seq := nextSeq w cfg rc
    len := cfg.payloadSize
    crc := crc32 src }

/-- `Persistent::store_immediate` (source lines 101-143): scan for the
best candidate, write the payload to the target slot, then (only if that
succeeded) write the header; on full success update cache_, clear dirty_
and remember last_seq_.  Returns the esp_err_t status, the new world, the
new cache state and the final read- and write-call counters. -/
def store_immediate (w : World) (cfg : Config) (st : PState)
    (rc wc : Nat) (src : List Nat) : Nat × World × PState × Nat × Nat :=
  let next := nextAddr w cfg rc
  let rc' := scanRc w cfg rc
  let h := newHeader w cfg rc src
  let wp := framWrite w wc (next + headerSize) src
  if wp.1 ≠ 0 then (wp.1, wp.2.1, st, rc', wp.2.2)
  else
    let wh := framWrite wp.2.1 wp.2.2 next (encodeHeader h)
    if wh.1 ≠ 0 then (wh.1, wh.2.1, st, rc', wh.2.2)
    else (ESP_OK, wh.2.1,
      { cache := src, dirty := false, last_seq := nextSeq w cfg rc },
      rc', wh.2.2)

/-! ## store_deferred and flush (fram_store.h lines 146-155) -/

/-- `Persistent::store_deferred` (source lines 146-149): update the RAM
cache and set the dirty flag; the method performs no backing-store I/O
(its body touches only cache_ and dirty_) and returns void. -/
def store_deferred (st : PState) (src : List Nat) : PState :=
  { st with cache := src, dirty := true }

/-- `Persistent::flush` (source lines 152-155): succeed with no I/O when
not dirty, otherwise commit the cached value with store_immediate. -/
def flush (w : World) (cfg : Config) (st : PState) (rc wc : Nat) :
    Nat × World × PState × Nat × Nat :=
  if !st.dirty then (ESP_OK, w, st, rc, wc)
  else store_immediate w cfg st rc wc st.cache

/-- A call of the (const) method `load` observed on the full machine
state: the result and output buffer, together with the world, the cache
state and the write-call counter after the call. -/
def loadOp (w : World) (cfg : Config) (st : PState) (rc wc : Nat)
    (dst0 : List Nat) : (Nat × List Nat) × World × PState × Nat × Nat :=
  let r := load w cfg rc dst0
  ((r.1, r.2.1), w, st, r.2.2, wc)

/-! ## Spec-side observations used to state the theorems -/

/-- The header stored at address `a` of memory `m`. -/
def hdrAt (m : Nat → Nat) (a : Nat) : Header :=
  decodeHeader (memBytes m a headerSize)

/-- The payload bytes of the slot at address `a`. -/
def payloadBytesAt (m : Nat → Nat) (cfg : Config) (a : Nat) : List Nat :=
  memBytes m (a + headerSize) cfg.payloadSize

/-- The header of slot `i`. -/
def slotHdr (m : Nat → Nat) (cfg : Config) (i : Nat) : Header :=
  hdrAt m (slotAddr cfg i)

/-- The payload bytes of slot `i`. -/
def slotPayload (m : Nat → Nat) (cfg : Config) (i : Nat) : List Nat :=
  payloadBytesAt m cfg (slotAddr cfg i)

/-- The structural part of load's validity check (source line 84):
magic, version and len all match. -/
def structOk (cfg : Config) (h : Header) : Prop :=
  h.magic = STORE_MAGIC ∧ h.version = cfg.version ∧ h.len = cfg.payloadSize

instance (cfg : Config) (h : Header) : Decidable (structOk cfg h) := by
  unfold structOk; infer_instance

/-- Full validity of slot `i` as checked by load (source lines 84-87):
the structural checks pass and the stored CRC equals a freshly computed
CRC over the payload bytes. -/
def validSlot (m : Nat → Nat) (cfg : Config) (i : Nat) : Prop :=
  structOk cfg (slotHdr m cfg i) ∧
    crc32 (slotPayload m cfg i) = (slotHdr m cfg i).crc

instance (m : Nat → Nat) (cfg : Config) (i : Nat) :
    Decidable (validSlot m cfg i) := by
  unfold validSlot; infer_instance

/-- Candidacy of a header in store_immediate's scan (source line 110):
only magic and version are checked. -/
def candOk (cfg : Config) (h : Header) : Prop :=
  h.magic = STORE_MAGIC ∧ h.version = cfg.version

instance (cfg : Config) (h : Header) : Decidable (candOk cfg h) := by
  unfold candOk; infer_instance

/-- The header observed by store_immediate's scan for slot `i` when the
scan starts at read-call counter `rc`: the true header when read call
`rc + i` succeeds, the decoded garbage otherwise. -/
def obsHdr (w : World) (cfg : Config) (rc i : Nat) : Header :=
  if w.readErr (rc + i) = 0 then slotHdr w.mem cfg i
  else decodeHeader (garbageBytes w (rc + i) headerSize)

/-! ## Derived helper definitions and example stores -/

/-- The candidate update applied by both scan loops for one slot:
if the slot qualifies, it becomes the best candidate when it is the first
or has a strictly larger seq. -/
def candUpd (b : Option (Header × Nat)) (ok : Prop) [Decidable ok]
    (h : Header) (a : Nat) : Option (Header × Nat) :=
  if ok then
    match b with
    | none => some (h, a)
    | some (bh, ba) => if h.seq > bh.seq then some (h, a) else some (bh, ba)
  else b

/-- Folding the candidate update over the first `n` slots. -/
def bestFold (ok : Nat → Prop) [DecidablePred ok] (hdr : Nat → Header)
    (addr : Nat → Nat) (n : Nat) : Option (Header × Nat) :=
  (List.range n).foldl (fun b i => candUpd b (ok i) (hdr i) (addr i)) none

/-! ## Concrete example stores used to instantiate the theorems -/

/-- A backing store holding all zero bytes, with no I/O failures. -/
def zeroWorld : World :=
  { mem := fun _ => 0, readErr := fun _ => 0, writeErr := fun _ => 0,
    garbage := fun _ _ => 0 }

/-- A two-slot store configuration with a one-byte payload. -/
def exCfg : Config := { base := 0, slots := 2, version := 1, payloadSize := 1 }

/-- A clean cache state. -/
def exSt : PState := { cache := [0], dirty := false, last_seq := 0 }

/-- A dirty cache state holding the byte 4. -/
def dirtySt : PState := { cache := [4], dirty := true, last_seq := 0 }

/-- A valid stored record: seq 3, one payload byte 7. -/
def oneHdr : Header :=
  { magic := STORE_MAGIC, version := 1, reserved := 0, seq := 3, len := 1,
    crc := crc32 [7] }

/-- A world whose slot 0 holds `oneHdr` with payload byte 7 and whose
slot 1 is erased (zero); no I/O failures. -/
def oneWorld : World :=
  { zeroWorld with mem := fun a => (encodeHeader oneHdr ++ [7]).getD a 0 }

/-- A world whose writes all fail with error 7. -/
def failWriteWorld : World := { zeroWorld with writeErr := fun _ => 7 }

/-- Corrupt one byte of a world's memory. -/
def corruptByte (w : World) (addr b : Nat) : World :=
  { w with mem := writeBytes w.mem addr [b] }

/-! ## Remaining concrete stores for the corruption and failure claims -/

/-- A one-slot configuration. -/
def gCfg : Config := { base := 0, slots := 1, version := 1, payloadSize := 1 }

/-- A world whose reads all fail with error 5 while the uninitialized
buffer happens to hold a magic/version-matching header with seq 5. -/
def garbageWorld : World :=
  { mem := fun _ => 0, readErr := fun _ => 5, writeErr := fun _ => 0,
    garbage := fun _ o => (encodeHeader
      { magic := STORE_MAGIC, version := 1, reserved := 0, seq := 5, len := 0,
        crc := 0 }).getD o 0 }

/-- A stored record carrying the maximal 32-bit sequence number. -/
def wrapHdr : Header :=
  { magic := STORE_MAGIC, version := 1, reserved := 0, seq := 4294967295,
    len := 1, crc := crc32 [5] }

/-- A world whose slot 0 holds `wrapHdr` with payload byte 5; slot 1 is
erased; no I/O failures. -/
def wrapWorld : World :=
  { zeroWorld with mem := fun a => (encodeHeader wrapHdr ++ [5]).getD a 0 }

/-- A world with one valid record in slot 0 whose read call number 3 (the
final payload re-read of a two-slot load) fails with error 0x103. -/
def finalFailWorld : World :=
  { mem := fun a => (encodeHeader oneHdr ++ [7]).getD a 0,
    readErr := fun k => if k = 3 then 0x103 else 0,
    writeErr := fun _ => 0, garbage := fun _ _ => 0 }

/-! ## The CRC table as a literal, with its decidable injectivity facts -/

/-- The 256 entries of the CRC-32 table, written out; proved below to equal
the table built by the source's lazy initializer. -/
def crcTable : List Nat := [
  0x00000000, 0x77073096, 0xEE0E612C, 0x990951BA, 0x076DC419, 0x706AF48F, 0xE963A535, 0x9E6495A3,
  0x0EDB8832, 0x79DCB8A4, 0xE0D5E91E, 0x97D2D988, 0x09B64C2B, 0x7EB17CBD, 0xE7B82D07, 0x90BF1D91,
  0x1DB71064, 0x6AB020F2, 0xF3B97148, 0x84BE41DE, 0x1ADAD47D, 0x6DDDE4EB, 0xF4D4B551, 0x83D385C7,
  0x136C9856, 0x646BA8C0, 0xFD62F97A, 0x8A65C9EC, 0x14015C4F, 0x63066CD9, 0xFA0F3D63, 0x8D080DF5,
  0x3B6E20C8, 0x4C69105E, 0xD56041E4, 0xA2677172, 0x3C03E4D1, 0x4B04D447, 0xD20D85FD, 0xA50AB56B,
  0x35B5A8FA, 0x42B2986C, 0xDBBBC9D6, 0xACBCF940, 0x32D86CE3, 0x45DF5C75, 0xDCD60DCF, 0xABD13D59,
  0x26D930AC, 0x51DE003A, 0xC8D75180, 0xBFD06116, 0x21B4F4B5, 0x56B3C423, 0xCFBA9599, 0xB8BDA50F,
  0x2802B89E, 0x5F058808, 0xC60CD9B2, 0xB10BE924, 0x2F6F7C87, 0x58684C11, 0xC1611DAB, 0xB6662D3D,
  0x76DC4190, 0x01DB7106, 0x98D220BC, 0xEFD5102A, 0x71B18589, 0x06B6B51F, 0x9FBFE4A5, 0xE8B8D433,
  0x7807C9A2, 0x0F00F934, 0x9609A88E, 0xE10E9818, 0x7F6A0DBB, 0x086D3D2D, 0x91646C97, 0xE6635C01,
  0x6B6B51F4, 0x1C6C6162, 0x856530D8, 0xF262004E, 0x6C0695ED, 0x1B01A57B, 0x8208F4C1, 0xF50FC457,
  0x65B0D9C6, 0x12B7E950, 0x8BBEB8EA, 0xFCB9887C, 0x62DD1DDF, 0x15DA2D49, 0x8CD37CF3, 0xFBD44C65,
  0x4DB26158, 0x3AB551CE, 0xA3BC0074, 0xD4BB30E2, 0x4ADFA541, 0x3DD895D7, 0xA4D1C46D, 0xD3D6F4FB,
  0x4369E96A, 0x346ED9FC, 0xAD678846, 0xDA60B8D0, 0x44042D73, 0x33031DE5, 0xAA0A4C5F, 0xDD0D7CC9,
  0x5005713C, 0x270241AA, 0xBE0B1010, 0xC90C2086, 0x5768B525, 0x206F85B3, 0xB966D409, 0xCE61E49F,
  0x5EDEF90E, 0x29D9C998, 0xB0D09822, 0xC7D7A8B4, 0x59B33D17, 0x2EB40D81, 0xB7BD5C3B, 0xC0BA6CAD,
  0xEDB88320, 0x9ABFB3B6, 0x03B6E20C, 0x74B1D29A, 0xEAD54739, 0x9DD277AF, 0x04DB2615, 0x73DC1683,
  0xE3630B12, 0x94643B84, 0x0D6D6A3E, 0x7A6A5AA8, 0xE40ECF0B, 0x9309FF9D, 0x0A00AE27, 0x7D079EB1,
  0xF00F9344, 0x8708A3D2, 0x1E01F268, 0x6906C2FE, 0xF762575D, 0x806567CB, 0x196C3671, 0x6E6B06E7,
  0xFED41B76, 0x89D32BE0, 0x10DA7A5A, 0x67DD4ACC, 0xF9B9DF6F, 0x8EBEEFF9, 0x17B7BE43, 0x60B08ED5,
  0xD6D6A3E8, 0xA1D1937E, 0x38D8C2C4, 0x4FDFF252, 0xD1BB67F1, 0xA6BC5767, 0x3FB506DD, 0x48B2364B,
  0xD80D2BDA, 0xAF0A1B4C, 0x36034AF6, 0x41047A60, 0xDF60EFC3, 0xA867DF55, 0x316E8EEF, 0x4669BE79,
  0xCB61B38C, 0xBC66831A, 0x256FD2A0, 0x5268E236, 0xCC0C7795, 0xBB0B4703, 0x220216B9, 0x5505262F,
  0xC5BA3BBE, 0xB2BD0B28, 0x2BB45A92, 0x5CB36A04, 0xC2D7FFA7, 0xB5D0CF31, 0x2CD99E8B, 0x5BDEAE1D,
  0x9B64C2B0, 0xEC63F226, 0x756AA39C, 0x026D930A, 0x9C0906A9, 0xEB0E363F, 0x72076785, 0x05005713,
  0x95BF4A82, 0xE2B87A14, 0x7BB12BAE, 0x0CB61B38, 0x92D28E9B, 0xE5D5BE0D, 0x7CDCEFB7, 0x0BDBDF21,
  0x86D3D2D4, 0xF1D4E242, 0x68DDB3F8, 0x1FDA836E, 0x81BE16CD, 0xF6B9265B, 0x6FB077E1, 0x18B74777,
  0x88085AE6, 0xFF0F6A70, 0x66063BCA, 0x11010B5C, 0x8F659EFF, 0xF862AE69, 0x616BFFD3, 0x166CCF45,
  0xA00AE278, 0xD70DD2EE, 0x4E048354, 0x3903B3C2, 0xA7672661, 0xD06016F7, 0x4969474D, 0x3E6E77DB,
  0xAED16A4A, 0xD9D65ADC, 0x40DF0B66, 0x37D83BF0, 0xA9BCAE53, 0xDEBB9EC5, 0x47B2CF7F, 0x30B5FFE9,
  0xBDBDF21C, 0xCABAC28A, 0x53B39330, 0x24B4A3A6, 0xBAD03605, 0xCDD70693, 0x54DE5729, 0x23D967BF,
  0xB3667A2E, 0xC4614AB8, 0x5D681B02, 0x2A6F2B94, 0xB40BBE37, 0xC30C8EA1, 0x5A05DF1B, 0x2D02EF8D]

set_option maxRecDepth 4096 in
theorem crcTable_eq : crcTable = (List.range 256).map crcTableEntry := by decide

set_option maxRecDepth 4096 in
theorem crcTable_nodup : crcTable.Nodup := by decide

set_option maxRecDepth 4096 in
theorem crcTableTop_nodup : (crcTable.map (fun x => x >>> 24)).Nodup := by decide

set_option maxRecDepth 4096 in
theorem crcTable_lt : ∀ x ∈ crcTable, x < 2 ^ 32 := by decide

/-! ## Facts about serialization and the byte memory -/

theorem encodeHeader_length (h : Header) : (encodeHeader h).length = headerSize := rfl

theorem le32_lt (v : Nat) : ∀ b ∈ le32 v, b < 256 := by
  intro b hb
  simp only [le32, List.mem_cons, List.not_mem_nil, or_false] at hb
  rcases hb with rfl | rfl | rfl | rfl <;> omega

theorem le16_lt (v : Nat) : ∀ b ∈ le16 v, b < 256 := by
  intro b hb
  simp only [le16, List.mem_cons, List.not_mem_nil, or_false] at hb
  rcases hb with rfl | rfl <;> omega

theorem encodeHeader_lt (h : Header) : ∀ b ∈ encodeHeader h, b < 256 := by
  intro b hb
  simp only [encodeHeader, List.mem_append] at hb
  rcases hb with ((((hb | hb) | hb) | hb) | hb) | hb
  · exact le32_lt _ _ hb
  · exact le16_lt _ _ hb
  · exact le16_lt _ _ hb
  · exact le32_lt _ _ hb
  · exact le32_lt _ _ hb
  · exact le32_lt _ _ hb

theorem decodeHeader_encodeHeader (h : Header)
    (h1 : h.magic < 2 ^ 32) (h2 : h.version < 2 ^ 16) (h3 : h.reserved < 2 ^ 16)
    (h4 : h.seq < 2 ^ 32) (h5 : h.len < 2 ^ 32) (h6 : h.crc < 2 ^ 32) :
    decodeHeader (encodeHeader h) = h := by
  obtain ⟨m, v, r, s, l, c⟩ := h
  simp only at h1 h2 h3 h4 h5 h6
  simp only [decodeHeader, encodeHeader, le32, le16, get32, get16,
    List.cons_append, List.nil_append, Header.mk.injEq]
  norm_num [List.getD]
  omega

theorem memBytes_length (m : Nat → Nat) (a n : Nat) :
    (memBytes m a n).length = n := by simp [memBytes]

theorem memBytes_getElem (m : Nat → Nat) (a n i : Nat) (hi : i < n) :
    (memBytes m a n).getD i 0 = m (a + i) % 256 := by
  simp [memBytes, List.getD_eq_getElem?_getD, List.getElem?_map,
    List.getElem?_range, hi]

theorem writeBytes_in (m : Nat → Nat) (a : Nat) (bs : List Nat) (x : Nat)
    (hx : a ≤ x ∧ x < a + bs.length) :
    writeBytes m a bs x = bs.getD (x - a) 0 := by
  simp only [writeBytes]; rw [if_pos hx]

theorem writeBytes_out (m : Nat → Nat) (a : Nat) (bs : List Nat) (x : Nat)
    (hx : ¬(a ≤ x ∧ x < a + bs.length)) :
    writeBytes m a bs x = m x := by
  simp only [writeBytes]; rw [if_neg hx]

theorem memBytes_writeBytes_self (m : Nat → Nat) (a : Nat) (bs : List Nat)
    (hb : ∀ b ∈ bs, b < 256) :
    memBytes (writeBytes m a bs) a bs.length = bs := by
  apply List.ext_getElem (by simp [memBytes])
  intro i h1 h2
  have hi : i < bs.length := h2
  simp only [memBytes, List.getElem_map, List.getElem_range]
  rw [writeBytes_in m a bs (a + i) (by omega)]
  have : a + i - a = i := by omega
  rw [this]
  have hd : bs.getD i 0 = bs[i] := by
    simp [List.getD_eq_getElem?_getD, List.getElem?_eq_getElem hi]
  rw [hd, Nat.mod_eq_of_lt (hb _ (List.getElem_mem hi))]

theorem memBytes_writeBytes_disjoint (m : Nat → Nat) (a a' n : Nat)
    (bs : List Nat) (hd : a' + n ≤ a ∨ a + bs.length ≤ a') :
    memBytes (writeBytes m a bs) a' n = memBytes m a' n := by
  unfold memBytes
  apply List.map_congr_left
  intro i hi
  rw [List.mem_range] at hi
  rw [writeBytes_out m a bs (a' + i) (by omega)]

/-! ## Algebra of the CRC feedback step -/

theorem shiftRight_xor_distrib (a b n : Nat) :
    (a ^^^ b) >>> n = a >>> n ^^^ b >>> n := by
  apply Nat.eq_of_testBit_eq; intro i
  simp [Nat.testBit_shiftRight, Nat.testBit_xor]

theorem xor_left_comm (a b c : Nat) : a ^^^ (b ^^^ c) = b ^^^ (a ^^^ c) := by
  rw [← Nat.xor_assoc, Nat.xor_comm a b, Nat.xor_assoc]

theorem xor_cancel_left (a b : Nat) : a ^^^ (a ^^^ b) = b := by
  rw [← Nat.xor_assoc, Nat.xor_self, Nat.zero_xor]

theorem xor_left_cancel (a b c : Nat) (h : a ^^^ b = a ^^^ c) : b = c := by
  have h2 := congrArg (fun x => a ^^^ x) h
  simpa [xor_cancel_left] using h2

theorem xor_right_cancel (a b c : Nat) (h : a ^^^ c = b ^^^ c) : a = b := by
  apply xor_left_cancel c
  rw [Nat.xor_comm c a, Nat.xor_comm c b]; exact h

theorem crcStep_linear (a b : Nat) :
    crcStep (a ^^^ b) = crcStep a ^^^ crcStep b := by
  unfold crcStep
  have hxor : (a ^^^ b) &&& 1 = (a &&& 1) ^^^ (b &&& 1) := Nat.and_xor_distrib_right
  have ha : a &&& 1 = 0 ∨ a &&& 1 = 1 := by
    rw [Nat.and_one_is_mod]; omega
  have hb : b &&& 1 = 0 ∨ b &&& 1 = 1 := by
    rw [Nat.and_one_is_mod]; omega
  rcases ha with ha | ha <;> rcases hb with hb | hb <;>
    rw [hxor, ha, hb] <;>
    simp [shiftRight_xor_distrib, Nat.xor_assoc, Nat.xor_comm, xor_left_comm,
      xor_cancel_left]

theorem crcStep8_linear (a b : Nat) :
    crcStep8 (a ^^^ b) = crcStep8 a ^^^ crcStep8 b := by
  simp [crcStep8, crcStep_linear]

theorem crcStep_two_mul (n : Nat) : crcStep (2 * n) = n := by
  unfold crcStep
  have h1 : 2 * n &&& 1 = 0 := by rw [Nat.and_one_is_mod]; omega
  have e : (2 : Nat) ^ 1 = 2 := rfl
  have h2 : (2 * n) >>> 1 = n := by rw [Nat.shiftRight_eq_div_pow, e]; omega
  rw [h1]
  simp [h2]

theorem crcStep8_mul256 (m : Nat) : crcStep8 (256 * m) = m := by
  have h : (256 : Nat) * m = 2 * (2 * (2 * (2 * (2 * (2 * (2 * (2 * m))))))) := by
    ring
  simp [crcStep8, h, crcStep_two_mul]

theorem byte_decomp (x : Nat) : 256 * (x >>> 8) ^^^ (x &&& 255) = x := by
  apply Nat.eq_of_testBit_eq; intro i
  have hs : (256 : Nat) * (x >>> 8) = (x >>> 8) <<< 8 := by
    rw [Nat.shiftLeft_eq]; ring
  have h255 : (255 : Nat) = 2 ^ 8 - 1 := by norm_num
  rw [hs, h255]
  simp only [Nat.testBit_xor, Nat.testBit_shiftLeft, Nat.testBit_shiftRight,
    Nat.testBit_and, Nat.testBit_two_pow_sub_one]
  by_cases hi : 8 ≤ i
  · have : 8 + (i - 8) = i := by omega
    simp [hi, this, show ¬ i < 8 by omega]
  · simp [hi, show i < 8 by omega]

theorem crcStep8_eq_table (x : Nat) :
    crcStep8 x = crcTableEntry (x &&& 255) ^^^ (x >>> 8) := by
  conv_lhs => rw [← byte_decomp x]
  rw [crcStep8_linear, crcStep8_mul256, crcTableEntry, Nat.xor_comm]

theorem crcByteStep_eq_ref (c b : Nat) (hb : b < 256) :
    crcByteStep c b = crcStep8 (c ^^^ b) := by
  rw [crcStep8_eq_table]
  unfold crcByteStep
  have e : (2 : Nat) ^ 8 = 256 := rfl
  have h1 : (c ^^^ b) >>> 8 = c >>> 8 := by
    rw [shiftRight_xor_distrib]
    have h0 : b >>> 8 = 0 := by rw [Nat.shiftRight_eq_div_pow, e]; omega
    rw [h0, Nat.xor_zero]
  rw [h1]

theorem crc32Aux_eq_ref (bs : List Nat) : ∀ c, (∀ b ∈ bs, b < 256) →
    crc32Aux c bs = bs.foldl (fun c b => crcStep8 (c ^^^ b)) c := by
  induction bs with
  | nil => intro c _; rfl
  | cons x xs ih =>
      intro c hb
      show crc32Aux (crcByteStep c x) xs = xs.foldl _ (crcStep8 (c ^^^ x))
      rw [crcByteStep_eq_ref c x (hb x (by simp))]
      exact ih _ (fun b h => hb b (by simp [h]))

/-! ## Injectivity of the CRC byte step, and single-byte error detection -/

theorem and255_eq_mod (x : Nat) : x &&& 255 = x % 256 := by
  have h255 : (255 : Nat) = 2 ^ 8 - 1 := by norm_num
  have e : (2 : Nat) ^ 8 = 256 := rfl
  rw [h255, Nat.and_pow_two_sub_one_eq_mod, e]

theorem and255_lt (x : Nat) : x &&& 255 < 256 := by
  rw [and255_eq_mod]; omega

theorem crcTableEntry_mem (i : Nat) (hi : i < 256) : crcTableEntry i ∈ crcTable := by
  rw [crcTable_eq]
  exact List.mem_map_of_mem _ (List.mem_range.mpr hi)

theorem crcTableEntry_lt (i : Nat) (hi : i < 256) : crcTableEntry i < 2 ^ 32 :=
  crcTable_lt _ (crcTableEntry_mem i hi)

theorem crcTableEntry_inj (i j : Nat) (hi : i < 256) (hj : j < 256)
    (h : crcTableEntry i = crcTableEntry j) : i = j := by
  have hn : ((List.range 256).map crcTableEntry).Nodup := crcTable_eq ▸ crcTable_nodup
  have hinj := List.nodup_iff_injective_getElem.mp hn
  have hlen : ((List.range 256).map crcTableEntry).length = 256 := by simp
  have h1 : i < ((List.range 256).map crcTableEntry).length := by omega
  have h2 : j < ((List.range 256).map crcTableEntry).length := by omega
  have hfin := @hinj ⟨i, h1⟩ ⟨j, h2⟩ (by simpa using h)
  simpa using congrArg Fin.val hfin

theorem crcTableEntry_top_inj (i j : Nat) (hi : i < 256) (hj : j < 256)
    (h : crcTableEntry i >>> 24 = crcTableEntry j >>> 24) : i = j := by
  have hn : ((List.range 256).map (fun k => crcTableEntry k >>> 24)).Nodup := by
    have := crcTableTop_nodup
    rwa [crcTable_eq, List.map_map] at this
  have hinj := List.nodup_iff_injective_getElem.mp hn
  have hlen : ((List.range 256).map (fun k => crcTableEntry k >>> 24)).length = 256 := by
    simp
  have h1 : i < ((List.range 256).map (fun k => crcTableEntry k >>> 24)).length := by
    omega
  have h2 : j < ((List.range 256).map (fun k => crcTableEntry k >>> 24)).length := by
    omega
  have hfin := @hinj ⟨i, h1⟩ ⟨j, h2⟩ (by simpa using h)
  simpa using congrArg Fin.val hfin

theorem xor_low_cancel (x y b : Nat)
    (h : (x ^^^ b) &&& 255 = (y ^^^ b) &&& 255) : x &&& 255 = y &&& 255 := by
  apply Nat.eq_of_testBit_eq; intro i
  have hb := congrArg (fun t => Nat.testBit t i) h
  have h255 : (255 : Nat) = 2 ^ 8 - 1 := by norm_num
  simp only [h255, Nat.testBit_and, Nat.testBit_xor,
    Nat.testBit_two_pow_sub_one] at hb ⊢
  by_cases hi : i < 8
  · simp only [hi, decide_True, Bool.and_true] at hb ⊢
    cases hx : Nat.testBit b i <;> rw [hx] at hb <;> simpa using hb
  · simp [hi]

theorem crcByteStep_lt (c b : Nat) (hc : c < 2 ^ 32) :
    crcByteStep c b < 2 ^ 32 := by
  unfold crcByteStep
  apply Nat.xor_lt_two_pow (crcTableEntry_lt _ (and255_lt _))
  have e : (2 : Nat) ^ 8 = 256 := rfl
  rw [Nat.shiftRight_eq_div_pow, e]
  omega

theorem crcByteStep_inj_byte (c b b' : Nat) (hb : b < 256) (hb' : b' < 256)
    (hne : b ≠ b') : crcByteStep c b ≠ crcByteStep c b' := by
  intro he
  unfold crcByteStep at he
  have hT : crcTableEntry ((c ^^^ b) &&& 255) = crcTableEntry ((c ^^^ b') &&& 255) :=
    xor_right_cancel _ _ _ he
  have hidx : (c ^^^ b) &&& 255 = (c ^^^ b') &&& 255 :=
    crcTableEntry_inj _ _ (and255_lt _) (and255_lt _) hT
  rw [Nat.xor_comm c b, Nat.xor_comm c b'] at hidx
  have hlow := xor_low_cancel _ _ _ hidx
  rw [and255_eq_mod, and255_eq_mod, Nat.mod_eq_of_lt hb,
    Nat.mod_eq_of_lt hb'] at hlow
  exact hne hlow

theorem crcByteStep_inj_state (c c' b : Nat) (hc : c < 2 ^ 32) (hc' : c' < 2 ^ 32)
    (hne : c ≠ c') : crcByteStep c b ≠ crcByteStep c' b := by
  intro he
  unfold crcByteStep at he
  by_cases hl : (c ^^^ b) &&& 255 = (c' ^^^ b) &&& 255
  · rw [hl] at he
    have h8 : c >>> 8 = c' >>> 8 := xor_left_cancel _ _ _ he
    have hlow := xor_low_cancel _ _ _ hl
    rw [and255_eq_mod, and255_eq_mod] at hlow
    have e : (2 : Nat) ^ 8 = 256 := rfl
    rw [Nat.shiftRight_eq_div_pow, e, Nat.shiftRight_eq_div_pow, e] at h8
    omega
  · have htop : crcTableEntry ((c ^^^ b) &&& 255) >>> 24 ≠
        crcTableEntry ((c' ^^^ b) &&& 255) >>> 24 := by
      intro hE
      exact hl (crcTableEntry_top_inj _ _ (and255_lt _) (and255_lt _) hE)
    apply htop
    have e8 : (2 : Nat) ^ 8 = 256 := rfl
    have e24 : (2 : Nat) ^ 24 = 16777216 := rfl
    have key : ∀ T d : Nat, d < 2 ^ 32 →
        (T ^^^ d >>> 8) >>> 24 = T >>> 24 := by
      intro T d hd
      rw [shiftRight_xor_distrib]
      have h32 : (2 : Nat) ^ 32 = 4294967296 := rfl
      rw [h32] at hd
      have h0 : (d >>> 8) >>> 24 = 0 := by
        simp only [Nat.shiftRight_eq_div_pow, e8, e24]
        omega
      rw [h0, Nat.xor_zero]
    have k1 := key (crcTableEntry ((c ^^^ b) &&& 255)) c hc
    have k2 := key (crcTableEntry ((c' ^^^ b) &&& 255)) c' hc'
    rw [← k1, ← k2, he]

theorem crc32Aux_lt (bs : List Nat) : ∀ c, c < 2 ^ 32 → crc32Aux c bs < 2 ^ 32 := by
  induction bs with
  | nil => intro c hc; exact hc
  | cons x xs ih =>
      intro c hc
      exact ih _ (crcByteStep_lt c x hc)

theorem crc32Aux_ne (bs : List Nat) : ∀ c c', c < 2 ^ 32 → c' < 2 ^ 32 → c ≠ c' →
    crc32Aux c bs ≠ crc32Aux c' bs := by
  induction bs with
  | nil => intro c c' _ _ hne; exact hne
  | cons x xs ih =>
      intro c c' hc hc' hne
      exact ih _ _ (crcByteStep_lt c x hc) (crcByteStep_lt c' x hc')
        (crcByteStep_inj_state c c' x hc hc' hne)

/-- Changing a single byte of the input (both old and new value being
bytes) always changes the CRC-32. -/
theorem crc32_single_byte_ne (pre post : List Nat) (b b' : Nat)
    (hb : b < 256) (hb' : b' < 256) (hne : b ≠ b') :
    crc32 (pre ++ b :: post) ≠ crc32 (pre ++ b' :: post) := by
  unfold crc32
  intro he
  apply crc32Aux_ne post (crcByteStep (crc32Aux 0xFFFFFFFF pre) b)
      (crcByteStep (crc32Aux 0xFFFFFFFF pre) b') ?_ ?_ ?_ ?_
  · exact crcByteStep_lt _ _ (crc32Aux_lt _ _ (by norm_num))
  · exact crcByteStep_lt _ _ (crc32Aux_lt _ _ (by norm_num))
  · exact crcByteStep_inj_byte _ _ _ hb hb' hne
  · have h1 : crc32Aux 0xFFFFFFFF (pre ++ b :: post) =
        crc32Aux (crcByteStep (crc32Aux 0xFFFFFFFF pre) b) post := by
      unfold crc32Aux
      rw [List.foldl_append]
      rfl
    have h2 : crc32Aux 0xFFFFFFFF (pre ++ b' :: post) =
        crc32Aux (crcByteStep (crc32Aux 0xFFFFFFFF pre) b') post := by
      unfold crc32Aux
      rw [List.foldl_append]
      rfl
    rw [← h1, ← h2]
    exact xor_right_cancel _ _ _ he

/-! ## Characterization of the two scan loops -/

theorem bestFold_spec (ok : Nat → Prop) [DecidablePred ok] (hdr : Nat → Header)
    (addr : Nat → Nat) (n : Nat) :
    (bestFold ok hdr addr n = none ∧ ∀ i, i < n → ¬ ok i) ∨
    (∃ i, i < n ∧ ok i ∧ bestFold ok hdr addr n = some (hdr i, addr i) ∧
      ∀ j, j < n → ok j → (hdr j).seq ≤ (hdr i).seq) := by
  induction n with
  | zero => left; exact ⟨rfl, by omega⟩
  | succ n ih =>
    have hstep : bestFold ok hdr addr (n + 1) =
        candUpd (bestFold ok hdr addr n) (ok n) (hdr n) (addr n) := by
      unfold bestFold; rw [List.range_succ, List.foldl_append]; rfl
    rcases ih with ⟨hb, hall⟩ | ⟨i, hi, hoki, hb, hmax⟩
    · by_cases hok : ok n
      · right
        refine ⟨n, by omega, hok, ?_, ?_⟩
        · rw [hstep, hb]; simp [candUpd, hok]
        · intro j hj hokj
          rcases Nat.lt_or_ge j n with h | h
          · exact absurd hokj (hall j h)
          · have hjn : j = n := by omega
            subst hjn; exact le_refl _
      · left
        constructor
        · rw [hstep, hb]; simp [candUpd, hok]
        · intro i hi
          rcases Nat.lt_or_ge i n with h | h
          · exact hall i h
          · have hin : i = n := by omega
            subst hin; exact hok
    · by_cases hok : ok n
      · by_cases hgt : (hdr n).seq > (hdr i).seq
        · right
          refine ⟨n, by omega, hok, ?_, ?_⟩
          · rw [hstep, hb]; simp [candUpd, hok, hgt]
          · intro j hj hokj
            rcases Nat.lt_or_ge j n with h | h
            · exact le_trans (hmax j h hokj) (le_of_lt hgt)
            · have hjn : j = n := by omega
              subst hjn; exact le_refl _
        · right
          refine ⟨i, by omega, hoki, ?_, ?_⟩
          · rw [hstep, hb]; simp [candUpd, hok, hgt]
          · intro j hj hokj
            rcases Nat.lt_or_ge j n with h | h
            · exact hmax j h hokj
            · have hjn : j = n := by omega
              subst hjn; omega
      · right
        refine ⟨i, by omega, hoki, ?_, ?_⟩
        · rw [hstep, hb]; simp [candUpd, hok]
        · intro j hj hokj
          rcases Nat.lt_or_ge j n with h | h
          · exact hmax j h hokj
          · have hjn : j = n := by omega
            subst hjn; exact absurd hokj hok

/-! ### store_immediate's scan in terms of the observed headers -/

theorem obsHdr_of_readOk (w : World) (cfg : Config) (rc i : Nat)
    (h : w.readErr (rc + i) = 0) : obsHdr w cfg rc i = slotHdr w.mem cfg i := by
  simp [obsHdr, h]

theorem scanStep_eq (w : World) (cfg : Config) (b : Option (Header × Nat))
    (rc i : Nat) :
    scanStep w cfg (b, rc + i) i =
      (candUpd b (candOk cfg (obsHdr w cfg rc i)) (obsHdr w cfg rc i)
        (slotAddr cfg i), rc + i + 1) := by
  by_cases h : w.readErr (rc + i) = 0 <;>
    rcases b with _ | ⟨bh, ba⟩ <;>
    simp only [scanStep, framRead, obsHdr, candUpd, candOk, slotHdr, hdrAt,
      h, if_true, if_false, reduceIte] <;>
    split <;> simp_all <;> split <;> simp_all

theorem scan_fold (w : World) (cfg : Config) (rc : Nat) : ∀ n b,
    (List.range n).foldl (scanStep w cfg) (b, rc) =
      ((List.range n).foldl
        (fun acc i => candUpd acc (candOk cfg (obsHdr w cfg rc i))
          (obsHdr w cfg rc i) (slotAddr cfg i)) b, rc + n) := by
  intro n
  induction n with
  | zero => intro b; rfl
  | succ n ih =>
      intro b
      rw [List.range_succ, List.foldl_append, List.foldl_append, ih b]
      simp only [List.foldl_cons, List.foldl_nil]
      rw [scanStep_eq]
      rfl

theorem scanBest_eq (w : World) (cfg : Config) (rc : Nat) :
    scanBest w cfg rc =
      bestFold (fun i => candOk cfg (obsHdr w cfg rc i)) (obsHdr w cfg rc)
        (slotAddr cfg) cfg.slots := by
  unfold scanBest bestFold
  rw [scan_fold]

theorem scanRc_eq (w : World) (cfg : Config) (rc : Nat) :
    scanRc w cfg rc = rc + cfg.slots := by
  unfold scanRc
  rw [scan_fold]

/-- The behavior of store_immediate's scan: either no observed header is a
candidate (magic+version match) and no best exists, or the best is an
observed candidate header with maximal seq. -/
theorem scanBest_spec (w : World) (cfg : Config) (rc : Nat) :
    (scanBest w cfg rc = none ∧
      ∀ i, i < cfg.slots → ¬ candOk cfg (obsHdr w cfg rc i)) ∨
    (∃ i, i < cfg.slots ∧ candOk cfg (obsHdr w cfg rc i) ∧
      scanBest w cfg rc = some (obsHdr w cfg rc i, slotAddr cfg i) ∧
      ∀ j, j < cfg.slots → candOk cfg (obsHdr w cfg rc j) →
        (obsHdr w cfg rc j).seq ≤ (obsHdr w cfg rc i).seq) := by
  rw [scanBest_eq]
  exact bestFold_spec _ _ _ _

/-! ### load's scan under successful reads -/

theorem loadSlotStep_eq (w : World) (cfg : Config)
    (hreads : ∀ k, w.readErr k = 0) (b : Option (Header × Nat)) (rc i : Nat) :
    loadSlotStep w cfg (b, rc) i =
      (candUpd b (validSlot w.mem cfg i) (slotHdr w.mem cfg i) (slotAddr cfg i),
        if structOk cfg (slotHdr w.mem cfg i) then rc + 2 else rc + 1) := by
  have h1 := hreads rc
  have h2 := hreads (rc + 1)
  by_cases hs : structOk cfg (slotHdr w.mem cfg i)
  · have hm := hs.1
    have hv := hs.2.1
    have hl := hs.2.2
    by_cases hc : crc32 (slotPayload w.mem cfg i) = (slotHdr w.mem cfg i).crc
    · have hval : validSlot w.mem cfg i := ⟨hs, hc⟩
      rcases b with _ | ⟨bh, ba⟩ <;>
        simp_all [loadSlotStep, framRead, candUpd, slotHdr, hdrAt,
          slotPayload, payloadBytesAt, hs, hval] <;>
        split <;> simp_all
    · have hval : ¬ validSlot w.mem cfg i := fun hv2 => hc hv2.2
      rcases b with _ | ⟨bh, ba⟩ <;>
        simp_all [loadSlotStep, framRead, candUpd, slotHdr, hdrAt,
          slotPayload, payloadBytesAt, hs, hval]
  · have hval : ¬ validSlot w.mem cfg i := fun hv2 => hs hv2.1
    have hcond : (slotHdr w.mem cfg i).magic ≠ STORE_MAGIC ∨
        (slotHdr w.mem cfg i).version ≠ cfg.version ∨
        (slotHdr w.mem cfg i).len ≠ cfg.payloadSize := by
      by_contra hx
      push_neg at hx
      exact hs ⟨hx.1, hx.2.1, hx.2.2⟩
    rcases b with _ | ⟨bh, ba⟩ <;>
      simp_all [loadSlotStep, framRead, candUpd, slotHdr, hdrAt, hs, hval]

/-! ## Assembled behavior of load under successful reads -/

theorem load_fold (w : World) (cfg : Config) (hreads : ∀ k, w.readErr k = 0) :
    ∀ n (b : Option (Header × Nat)) rc, ∃ rc',
    (List.range n).foldl (loadSlotStep w cfg) (b, rc) =
      ((List.range n).foldl
        (fun acc i => candUpd acc (validSlot w.mem cfg i) (slotHdr w.mem cfg i)
          (slotAddr cfg i)) b, rc') := by
  intro n
  induction n with
  | zero => intro b rc; exact ⟨rc, rfl⟩
  | succ n ih =>
      intro b rc
      obtain ⟨rc', he⟩ := ih b rc
      rw [List.range_succ, List.foldl_append, List.foldl_append, he]
      simp only [List.foldl_cons, List.foldl_nil]
      rw [loadSlotStep_eq w cfg hreads]
      exact ⟨_, rfl⟩

theorem load_spec (w : World) (cfg : Config) (rc : Nat) (dst0 : List Nat)
    (hreads : ∀ k, w.readErr k = 0) :
    ((∀ i, i < cfg.slots → ¬ validSlot w.mem cfg i) →
      (load w cfg rc dst0).1 = ESP_ERR_NOT_FOUND ∧
      (load w cfg rc dst0).2.1 = dst0) ∧
    ((∃ i, i < cfg.slots ∧ validSlot w.mem cfg i) →
      ∃ i, i < cfg.slots ∧ validSlot w.mem cfg i ∧
        (∀ j, j < cfg.slots → validSlot w.mem cfg j →
          (slotHdr w.mem cfg j).seq ≤ (slotHdr w.mem cfg i).seq) ∧
        (load w cfg rc dst0).1 = ESP_OK ∧
        (load w cfg rc dst0).2.1 = slotPayload w.mem cfg i) := by
  obtain ⟨rc', he⟩ := load_fold w cfg hreads cfg.slots none rc
  rcases bestFold_spec (validSlot w.mem cfg) (slotHdr w.mem cfg)
      (slotAddr cfg) cfg.slots with ⟨hb, hall⟩ | ⟨i, hi, hv, hb, hmax⟩ <;>
    unfold bestFold at hb
  · constructor
    · intro _
      simp only [load]
      rw [he, hb]
      simp
    · rintro ⟨i, hi, hv⟩
      exact absurd hv (hall i hi)
  · constructor
    · intro hnone
      exact absurd hv (hnone i hi)
    · intro _
      refine ⟨i, hi, hv, hmax, ?_, ?_⟩ <;>
      · simp only [load]
        rw [he, hb]
        simp [framRead, hreads, ESP_OK, slotPayload, payloadBytesAt]

/-! ## Arithmetic of slot addresses -/

theorem slotSize_pos (cfg : Config) : 0 < slotSize cfg := by
  unfold slotSize headerSize; omega

theorem slotAddr_div (cfg : Config) (i : Nat) :
    (slotAddr cfg i - cfg.base) / slotSize cfg = i := by
  unfold slotAddr
  rw [Nat.add_sub_cancel_left]
  exact Nat.mul_div_cancel i (slotSize_pos cfg)

theorem slotAddr_zero (cfg : Config) : slotAddr cfg 0 = cfg.base := by
  unfold slotAddr; omega

theorem slots_disjoint (cfg : Config) (j t : Nat) (hne : j ≠ t) :
    slotAddr cfg j + slotSize cfg ≤ slotAddr cfg t ∨
    slotAddr cfg t + slotSize cfg ≤ slotAddr cfg j := by
  rcases Nat.lt_or_ge j t with h | h
  · left
    have h2 : (j + 1) * slotSize cfg ≤ t * slotSize cfg :=
      Nat.mul_le_mul_right _ (by omega)
    calc slotAddr cfg j + slotSize cfg = cfg.base + (j + 1) * slotSize cfg := by
          unfold slotAddr; ring
      _ ≤ cfg.base + t * slotSize cfg := Nat.add_le_add_left h2 _
      _ = slotAddr cfg t := rfl
  · right
    have hlt : t < j := by omega
    have h2 : (t + 1) * slotSize cfg ≤ j * slotSize cfg :=
      Nat.mul_le_mul_right _ (by omega)
    calc slotAddr cfg t + slotSize cfg = cfg.base + (t + 1) * slotSize cfg := by
          unfold slotAddr; ring
      _ ≤ cfg.base + j * slotSize cfg := Nat.add_le_add_left h2 _
      _ = slotAddr cfg j := rfl

/-! ## The three outcomes of store_immediate -/

theorem crc32_lt (bs : List Nat) : crc32 bs < 2 ^ 32 := by
  unfold crc32
  exact Nat.xor_lt_two_pow (crc32Aux_lt _ _ (by norm_num)) (by norm_num)

theorem nextSeq_lt (w : World) (cfg : Config) (rc : Nat) :
    nextSeq w cfg rc < 2 ^ 32 := by
  unfold nextSeq
  rcases scanBest w cfg rc with _ | ⟨bh, ba⟩
  · norm_num
  · exact Nat.mod_lt _ (by norm_num)

theorem store_immediate_fail1 (w : World) (cfg : Config) (st : PState)
    (rc wc : Nat) (src : List Nat) (hw0 : w.writeErr wc ≠ 0) :
    store_immediate w cfg st rc wc src =
      (w.writeErr wc, w, st, scanRc w cfg rc, wc + 1) := by
  unfold store_immediate framWrite
  simp [hw0]

theorem store_immediate_fail2 (w : World) (cfg : Config) (st : PState)
    (rc wc : Nat) (src : List Nat) (hw0 : w.writeErr wc = 0)
    (hw1 : w.writeErr (wc + 1) ≠ 0) :
    store_immediate w cfg st rc wc src =
      (w.writeErr (wc + 1),
       { w with mem := writeBytes w.mem (nextAddr w cfg rc + headerSize) src },
       st, scanRc w cfg rc, wc + 2) := by
  unfold store_immediate framWrite
  simp [hw0, hw1]

theorem store_immediate_success (w : World) (cfg : Config) (st : PState)
    (rc wc : Nat) (src : List Nat) (hw0 : w.writeErr wc = 0)
    (hw1 : w.writeErr (wc + 1) = 0) :
    store_immediate w cfg st rc wc src =
      (ESP_OK,
       { w with mem := (writeBytes
          (writeBytes w.mem (nextAddr w cfg rc + headerSize) src)
          (nextAddr w cfg rc)
          (encodeHeader (newHeader w cfg rc src))) },
       { cache := src, dirty := false, last_seq := nextSeq w cfg rc },
       scanRc w cfg rc, wc + 2) := by
  unfold store_immediate framWrite
  simp [hw0, hw1, ESP_OK]

theorem store_immediate_fail_state (w : World) (cfg : Config) (st : PState)
    (rc wc : Nat) (src : List Nat)
    (h : (store_immediate w cfg st rc wc src).1 ≠ ESP_OK) :
    (store_immediate w cfg st rc wc src).2.2.1 = st := by
  by_cases hw0 : w.writeErr wc = 0
  · by_cases hw1 : w.writeErr (wc + 1) = 0
    · rw [store_immediate_success w cfg st rc wc src hw0 hw1] at h
      simp at h
    · rw [store_immediate_fail2 w cfg st rc wc src hw0 hw1]
  · rw [store_immediate_fail1 w cfg st rc wc src hw0]

/-! ## Slot contents after the two commit writes -/

theorem newHeader_decode (w : World) (cfg : Config) (rc : Nat) (src : List Nat)
    (hver : cfg.version < 2 ^ 16) (hpsz : cfg.payloadSize < 2 ^ 32) :
    decodeHeader (encodeHeader (newHeader w cfg rc src)) = newHeader w cfg rc src :=
  decodeHeader_encodeHeader _
    (by norm_num [newHeader, STORE_MAGIC])
    (by simpa [newHeader] using hver)
    (by norm_num [newHeader])
    (by simpa [newHeader] using nextSeq_lt w cfg rc)
    (by simpa [newHeader] using hpsz)
    (by simpa [newHeader] using crc32_lt src)

theorem validSlot_congr (m m' : Nat → Nat) (cfg : Config) (j : Nat)
    (h1 : slotHdr m' cfg j = slotHdr m cfg j)
    (h2 : slotPayload m' cfg j = slotPayload m cfg j) :
    validSlot m' cfg j ↔ validSlot m cfg j := by
  unfold validSlot structOk
  rw [h1, h2]

theorem writes_slot_content (m : Nat → Nat) (cfg : Config) (t : Nat)
    (H : Header) (src : List Nat)
    (hlen : src.length = cfg.payloadSize) (hsrc : ∀ b ∈ src, b < 256)
    (hdec : decodeHeader (encodeHeader H) = H) :
    slotHdr (writeBytes (writeBytes m (slotAddr cfg t + headerSize) src)
      (slotAddr cfg t) (encodeHeader H)) cfg t = H ∧
    slotPayload (writeBytes (writeBytes m (slotAddr cfg t + headerSize) src)
      (slotAddr cfg t) (encodeHeader H)) cfg t = src ∧
    ∀ j, j ≠ t →
      slotHdr (writeBytes (writeBytes m (slotAddr cfg t + headerSize) src)
        (slotAddr cfg t) (encodeHeader H)) cfg j = slotHdr m cfg j ∧
      slotPayload (writeBytes (writeBytes m (slotAddr cfg t + headerSize) src)
        (slotAddr cfg t) (encodeHeader H)) cfg j = slotPayload m cfg j := by
  have hS : slotSize cfg = headerSize + cfg.payloadSize := rfl
  refine ⟨?_, ?_, ?_⟩
  · unfold slotHdr hdrAt
    have hhdr : memBytes (writeBytes (writeBytes m (slotAddr cfg t + headerSize)
        src) (slotAddr cfg t) (encodeHeader H)) (slotAddr cfg t) headerSize =
        encodeHeader H := by
      have := memBytes_writeBytes_self
        (writeBytes m (slotAddr cfg t + headerSize) src)
        (slotAddr cfg t) (encodeHeader H) (encodeHeader_lt H)
      rwa [encodeHeader_length] at this
    rw [hhdr, hdec]
  · unfold slotPayload payloadBytesAt
    have h1 : memBytes (writeBytes (writeBytes m (slotAddr cfg t + headerSize)
        src) (slotAddr cfg t) (encodeHeader H))
        (slotAddr cfg t + headerSize) cfg.payloadSize =
        memBytes (writeBytes m (slotAddr cfg t + headerSize) src)
          (slotAddr cfg t + headerSize) cfg.payloadSize := by
      apply memBytes_writeBytes_disjoint
      rw [encodeHeader_length]
      right; omega
    rw [h1]
    have h2 := memBytes_writeBytes_self m (slotAddr cfg t + headerSize) src hsrc
    rwa [hlen] at h2
  · intro j hj
    have hd := slots_disjoint cfg j t hj
    rw [hS] at hd
    constructor
    · unfold slotHdr hdrAt
      have e1 : memBytes (writeBytes (writeBytes m (slotAddr cfg t + headerSize)
          src) (slotAddr cfg t) (encodeHeader H)) (slotAddr cfg j) headerSize =
          memBytes (writeBytes m (slotAddr cfg t + headerSize) src)
            (slotAddr cfg j) headerSize := by
        apply memBytes_writeBytes_disjoint
        rw [encodeHeader_length]
        omega
      have e2 : memBytes (writeBytes m (slotAddr cfg t + headerSize) src)
          (slotAddr cfg j) headerSize = memBytes m (slotAddr cfg j) headerSize := by
        apply memBytes_writeBytes_disjoint
        rw [hlen]
        omega
      rw [e1, e2]
    · unfold slotPayload payloadBytesAt
      have e1 : memBytes (writeBytes (writeBytes m (slotAddr cfg t + headerSize)
          src) (slotAddr cfg t) (encodeHeader H))
          (slotAddr cfg j + headerSize) cfg.payloadSize =
          memBytes (writeBytes m (slotAddr cfg t + headerSize) src)
            (slotAddr cfg j + headerSize) cfg.payloadSize := by
        apply memBytes_writeBytes_disjoint
        rw [encodeHeader_length]
        omega
      have e2 : memBytes (writeBytes m (slotAddr cfg t + headerSize) src)
          (slotAddr cfg j + headerSize) cfg.payloadSize =
          memBytes m (slotAddr cfg j + headerSize) cfg.payloadSize := by
        apply memBytes_writeBytes_disjoint
        rw [hlen]
        omega
      rw [e1, e2]

/-- The target address chosen by store_immediate is always the address of
a real slot. -/
theorem store_target_addr (w : World) (cfg : Config) (rc : Nat)
    (hslots : 0 < cfg.slots) :
    ∃ t, t < cfg.slots ∧ nextAddr w cfg rc = slotAddr cfg t := by
  rcases scanBest_spec w cfg rc with ⟨hnone, _⟩ | ⟨i, _, _, hsome, _⟩
  · refine ⟨0, hslots, ?_⟩
    unfold nextAddr
    rw [hnone]
    rw [slotAddr_zero]
  · refine ⟨(i + 1) % cfg.slots, Nat.mod_lt _ hslots, ?_⟩
    unfold nextAddr
    rw [hsome]
    show ((slotAddr cfg i - cfg.base) / slotSize cfg + 1) % cfg.slots *
        slotSize cfg + cfg.base = slotAddr cfg ((i + 1) % cfg.slots)
    rw [slotAddr_div]
    unfold slotAddr
    ring

/-- After a successful commit there is a target slot index: the next slot
address is a real slot, and every other slot whose header is a scan
candidate has a strictly smaller seq than the new header. -/
theorem store_target (w : World) (cfg : Config) (rc : Nat) (src : List Nat)
    (hreads : ∀ k, w.readErr k = 0) (hslots : 0 < cfg.slots)
    (hseq : ∀ bh ba, scanBest w cfg rc = some (bh, ba) → bh.seq + 1 < 2 ^ 32) :
    ∃ t, t < cfg.slots ∧ nextAddr w cfg rc = slotAddr cfg t ∧
      ∀ j, j < cfg.slots → candOk cfg (slotHdr w.mem cfg j) →
        (slotHdr w.mem cfg j).seq < (newHeader w cfg rc src).seq := by
  rcases scanBest_spec w cfg rc with ⟨hnone, hnocand⟩ | ⟨i, hi, hcand, hsome, hmax⟩
  · refine ⟨0, hslots, ?_, ?_⟩
    · unfold nextAddr
      rw [hnone]
      rw [slotAddr_zero]
    · intro j hj hc
      have hobs := obsHdr_of_readOk w cfg rc j (hreads (rc + j))
      exact absurd (hobs ▸ hc) (hnocand j hj)
  · refine ⟨(i + 1) % cfg.slots, Nat.mod_lt _ hslots, ?_, ?_⟩
    · unfold nextAddr
      rw [hsome]
      show ((slotAddr cfg i - cfg.base) / slotSize cfg + 1) % cfg.slots *
          slotSize cfg + cfg.base = slotAddr cfg ((i + 1) % cfg.slots)
      rw [slotAddr_div]
      unfold slotAddr
      ring
    · intro j hj hc
      have hobsj := obsHdr_of_readOk w cfg rc j (hreads (rc + j))
      have hobsi := obsHdr_of_readOk w cfg rc i (hreads (rc + i))
      have hle := hmax j hj (hobsj ▸ hc)
      rw [hobsj, hobsi] at hle
      have hlt := hseq _ _ hsome
      rw [hobsi] at hlt
      have hnew : (newHeader w cfg rc src).seq =
          ((slotHdr w.mem cfg i).seq + 1) % 2 ^ 32 := by
        unfold newHeader nextSeq
        rw [hsome, hobsi]
      rw [hnew, Nat.mod_eq_of_lt hlt]
      omega

/-! ## Store followed by load returns the stored value -/

/-- Claim C1 (amended): if all backing-store reads succeed during the
scan and the load, the stored value is a byte sequence of the configured
payload size, and no scan candidate carries the maximal sequence number
2^32-1 (no wraparound), then a successful store_immediate followed by a
load with no intervening writes succeeds and returns the stored value
byte for byte. -/
theorem store_then_load (w : World) (cfg : Config) (st : PState)
    (rc wc rc2 : Nat) (src dst0 : List Nat)
    (hreads : ∀ k, w.readErr k = 0)
    (hver : cfg.version < 2 ^ 16) (hpsz : cfg.payloadSize < 2 ^ 32)
    (hslots : 0 < cfg.slots)
    (hlen : src.length = cfg.payloadSize) (hsrc : ∀ b ∈ src, b < 256)
    (hseq : ∀ bh ba, scanBest w cfg rc = some (bh, ba) → bh.seq + 1 < 2 ^ 32)
    (hok : (store_immediate w cfg st rc wc src).1 = ESP_OK) :
    (load (store_immediate w cfg st rc wc src).2.1 cfg rc2 dst0).1 = ESP_OK ∧
    (load (store_immediate w cfg st rc wc src).2.1 cfg rc2 dst0).2.1 = src := by
  by_cases hw0 : w.writeErr wc = 0
  case neg =>
    rw [store_immediate_fail1 w cfg st rc wc src hw0] at hok
    exact absurd (by simpa [ESP_OK] using hok) hw0
  by_cases hw1 : w.writeErr (wc + 1) = 0
  case neg =>
    rw [store_immediate_fail2 w cfg st rc wc src hw0 hw1] at hok
    exact absurd (by simpa [ESP_OK] using hok) hw1
  obtain ⟨t, ht, hN, hdom⟩ := store_target w cfg rc src hreads hslots hseq
  rw [store_immediate_success w cfg st rc wc src hw0 hw1]
  rw [hN]
  simp only
  obtain ⟨hhdr_t, hpay_t, hother⟩ := writes_slot_content w.mem cfg t
    (newHeader w cfg rc src) src hlen hsrc (newHeader_decode w cfg rc src hver hpsz)
  generalize hM : writeBytes (writeBytes w.mem (slotAddr cfg t + headerSize) src)
    (slotAddr cfg t) (encodeHeader (newHeader w cfg rc src)) = M at *
  have hreads2 : ∀ k, (({ w with mem := M } : World)).readErr k = 0 :=
    fun k => hreads k
  have hspec := load_spec ({ w with mem := M }) cfg rc2 dst0 hreads2
  have hvt : validSlot M cfg t := by
    refine ⟨?_, ?_⟩
    · rw [hhdr_t]
      exact ⟨rfl, rfl, rfl⟩
    · rw [hpay_t, hhdr_t]
      rfl
  obtain ⟨i2, hi2, hvi2, hmax2, hres1, hres2⟩ := hspec.2 ⟨t, ht, hvt⟩
  have hit : i2 = t := by
    by_contra hne
    have hun := hother i2 hne
    have hv_old : validSlot w.mem cfg i2 :=
      (validSlot_congr w.mem M cfg i2 hun.1 hun.2).mp hvi2
    have hcand : candOk cfg (slotHdr w.mem cfg i2) := ⟨hv_old.1.1, hv_old.1.2.1⟩
    have hlt := hdom i2 hi2 hcand
    have hle := hmax2 t ht hvt
    rw [hhdr_t, hun.1] at hle
    omega
  subst hit
  exact ⟨hres1, by rw [hres2, hpay_t]⟩

/-! ## Which statuses load can return, under any failure pattern -/

theorem loadSlotStep_rc_ge (w : World) (cfg : Config)
    (st : Option (Header × Nat) × Nat) (i : Nat) :
    st.2 + 1 ≤ (loadSlotStep w cfg st i).2 := by
  rcases st with ⟨b, rc⟩
  rcases b with _ | ⟨bh, ba⟩ <;>
    unfold loadSlotStep framRead <;>
    by_cases h : w.readErr rc = 0 <;>
    by_cases h2 : w.readErr (rc + 1) = 0 <;>
    simp [h, h2] <;>
    split_ifs <;>
    simp_all <;>
    omega

theorem load_scan_rc_ge (w : World) (cfg : Config) : ∀ n (b : Option (Header × Nat))
    (rc : Nat), rc + n ≤ ((List.range n).foldl (loadSlotStep w cfg) (b, rc)).2 := by
  intro n
  induction n with
  | zero => intro b rc; simp
  | succ n ih =>
      intro b rc
      rw [List.range_succ, List.foldl_append]
      simp only [List.foldl_cons, List.foldl_nil]
      have h1 := ih b rc
      have h2 := loadSlotStep_rc_ge w cfg
        ((List.range n).foldl (loadSlotStep w cfg) (b, rc)) n
      omega

/-- Claim C6 (amended): per-slot read failures during the scan are
absorbed (the slot is treated as invalid) and the scan always completes,
performing at least one read per slot; but load either reports NotFound or
returns the status of the last read it performed, the final payload
re-read of the selected slot, so an I/O failure of that one read is
propagated to the caller. -/
theorem load_err_shape (w : World) (cfg : Config) (rc : Nat) (dst0 : List Nat) :
    ((load w cfg rc dst0).1 = ESP_ERR_NOT_FOUND ∨
      (load w cfg rc dst0).1 = w.readErr ((load w cfg rc dst0).2.2 - 1)) ∧
    rc + cfg.slots ≤ (load w cfg rc dst0).2.2 := by
  have hge := load_scan_rc_ge w cfg cfg.slots none rc
  rcases hs : (List.range cfg.slots).foldl (loadSlotStep w cfg) (none, rc)
    with ⟨b, rcf⟩
  rw [hs] at hge
  simp only at hge
  rcases b with _ | ⟨bh, ba⟩
  · constructor
    · left
      simp only [load]
      rw [hs]
    · simp only [load]
      rw [hs]
      exact hge
  · by_cases he : w.readErr rcf = 0
    · constructor
      · right
        simp only [load]
        rw [hs]
        simp [framRead, he, ESP_OK]
      · simp only [load]
        rw [hs]
        simp [framRead, he]
        omega
    · constructor
      · right
        simp only [load]
        rw [hs]
        simp [framRead, he]
      · simp only [load]
        rw [hs]
        simp [framRead, he]
        omega

/-! ## Corrupting a single payload byte -/

theorem memBytes_writeBytes_point (m : Nat → Nat) (a n x b : Nat)
    (hx : x < n) (hb : b < 256) :
    memBytes (writeBytes m (a + x) [b]) a n = (memBytes m a n).set x b := by
  apply List.ext_getElem (by simp [memBytes])
  intro i h1 h2
  rw [memBytes_length] at h1
  by_cases hix : i = x
  · subst hix
    simp only [memBytes, List.getElem_map, List.getElem_range]
    rw [List.getElem_set_self]
    rw [writeBytes_in m (a + i) [b] (a + i) (by simp)]
    simp [Nat.mod_eq_of_lt hb]
  · simp only [memBytes, List.getElem_map, List.getElem_range]
    rw [List.getElem_set_ne (by omega)]
    rw [writeBytes_out m (a + x) [b] (a + i) (by simp; omega)]
    simp [memBytes]

theorem crc32_set_ne (src : List Nat) (p b' : Nat) (hp : p < src.length)
    (hsrc : ∀ b ∈ src, b < 256) (hb' : b' < 256) (hne : b' ≠ src.getD p 0) :
    crc32 (src.set p b') ≠ crc32 src := by
  have hget : src.getD p 0 = src[p] := by
    simp [List.getD_eq_getElem?_getD, List.getElem?_eq_getElem hp]
  have hsplit : src = src.take p ++ src[p] :: src.drop (p + 1) := by
    conv_lhs => rw [← List.take_append_drop p src]
    rw [List.getElem_cons_drop]
  have hset : src.set p b' = src.take p ++ b' :: src.drop (p + 1) :=
    List.set_eq_take_cons_drop b' hp
  rw [hset]
  conv_rhs => rw [hsplit]
  exact crc32_single_byte_ne (src.take p) (src.drop (p + 1)) b' src[p] hb'
    (hsrc _ (List.getElem_mem hp)) (hget ▸ hne)

/-- Claim C2: for every backing-store state (with functioning reads), load
treats a slot as valid exactly when magic, version and len match and the
stored CRC equals the recomputed CRC of the read-back payload; it reports
NotFound when no slot is valid, and otherwise succeeds returning the
payload of a valid slot whose seq is maximal among all valid slots. -/
theorem load_selects_latest_valid (w : World) (cfg : Config) (rc : Nat)
    (dst0 : List Nat) (hreads : ∀ k, w.readErr k = 0) :
    ((∀ i, i < cfg.slots → ¬ validSlot w.mem cfg i) →
      (load w cfg rc dst0).1 = ESP_ERR_NOT_FOUND ∧
      (load w cfg rc dst0).2.1 = dst0) ∧
    ((∃ i, i < cfg.slots ∧ validSlot w.mem cfg i) →
      ∃ i, i < cfg.slots ∧ validSlot w.mem cfg i ∧
        (∀ j, j < cfg.slots → validSlot w.mem cfg j →
          (slotHdr w.mem cfg j).seq ≤ (slotHdr w.mem cfg i).seq) ∧
        (load w cfg rc dst0).1 = ESP_OK ∧
        (load w cfg rc dst0).2.1 = slotPayload w.mem cfg i) :=
  load_spec w cfg rc dst0 hreads

theorem load_selects_latest_valid_witness :
    ∃ i, i < exCfg.slots ∧ validSlot oneWorld.mem exCfg i ∧
      (∀ j, j < exCfg.slots → validSlot oneWorld.mem exCfg j →
        (slotHdr oneWorld.mem exCfg j).seq ≤ (slotHdr oneWorld.mem exCfg i).seq) ∧
      (load oneWorld exCfg 0 [0]).1 = ESP_OK ∧
      (load oneWorld exCfg 0 [0]).2.1 = slotPayload oneWorld.mem exCfg i :=
  (load_selects_latest_valid oneWorld exCfg 0 [0] (fun _ => rfl)).2
    ⟨0, by decide, by decide⟩

/-- Claim C3: store_immediate writes the payload before the header; a
failed payload write returns that error after exactly one write call with
memory and cache state untouched; a failed header write returns that error
with only the payload region modified and the cache state untouched; on
full success the cache holds the written value, the dirty flag is clear
and the written sequence number is remembered. -/
theorem store_commit_order (w : World) (cfg : Config) (st : PState)
    (rc wc : Nat) (src : List Nat) :
    (w.writeErr wc ≠ 0 →
      (store_immediate w cfg st rc wc src).1 = w.writeErr wc ∧
      (store_immediate w cfg st rc wc src).2.1 = w ∧
      (store_immediate w cfg st rc wc src).2.2.1 = st ∧
      (store_immediate w cfg st rc wc src).2.2.2.2 = wc + 1) ∧
    (w.writeErr wc = 0 → w.writeErr (wc + 1) ≠ 0 →
      (store_immediate w cfg st rc wc src).1 = w.writeErr (wc + 1) ∧
      (store_immediate w cfg st rc wc src).2.1.mem =
        writeBytes w.mem (nextAddr w cfg rc + headerSize) src ∧
      (store_immediate w cfg st rc wc src).2.2.1 = st ∧
      (store_immediate w cfg st rc wc src).2.2.2.2 = wc + 2) ∧
    (w.writeErr wc = 0 → w.writeErr (wc + 1) = 0 →
      (store_immediate w cfg st rc wc src).1 = ESP_OK ∧
      (store_immediate w cfg st rc wc src).2.1.mem =
        writeBytes (writeBytes w.mem (nextAddr w cfg rc + headerSize) src)
          (nextAddr w cfg rc) (encodeHeader (newHeader w cfg rc src)) ∧
      (store_immediate w cfg st rc wc src).2.2.1 =
        { cache := src, dirty := false, last_seq := nextSeq w cfg rc }) := by
  refine ⟨?_, ?_, ?_⟩
  · intro h
    rw [store_immediate_fail1 w cfg st rc wc src h]
    exact ⟨rfl, rfl, rfl, rfl⟩
  · intro h0 h1
    rw [store_immediate_fail2 w cfg st rc wc src h0 h1]
    exact ⟨rfl, rfl, rfl, rfl⟩
  · intro h0 h1
    rw [store_immediate_success w cfg st rc wc src h0 h1]
    exact ⟨rfl, rfl, rfl⟩

theorem store_commit_order_witness :
    ((store_immediate failWriteWorld exCfg exSt 0 0 [3]).1 =
        failWriteWorld.writeErr 0 ∧
      (store_immediate failWriteWorld exCfg exSt 0 0 [3]).2.1 = failWriteWorld ∧
      (store_immediate failWriteWorld exCfg exSt 0 0 [3]).2.2.1 = exSt ∧
      (store_immediate failWriteWorld exCfg exSt 0 0 [3]).2.2.2.2 = 0 + 1) ∧
    ((store_immediate zeroWorld exCfg exSt 0 0 [3]).1 = ESP_OK ∧
      (store_immediate zeroWorld exCfg exSt 0 0 [3]).2.1.mem =
        writeBytes (writeBytes zeroWorld.mem (nextAddr zeroWorld exCfg 0 +
          headerSize) [3]) (nextAddr zeroWorld exCfg 0)
          (encodeHeader (newHeader zeroWorld exCfg 0 [3])) ∧
      (store_immediate zeroWorld exCfg exSt 0 0 [3]).2.2.1 =
        { cache := [3], dirty := false, last_seq := nextSeq zeroWorld exCfg 0 }) :=
  ⟨(store_commit_order failWriteWorld exCfg exSt 0 0 [3]).1 (by decide),
   (store_commit_order zeroWorld exCfg exSt 0 0 [3]).2.2 rfl rfl⟩

/-- Claim C5: store_deferred only sets the cache and the dirty flag (it
performs no backing-store I/O and cannot fail); flush on a non-dirty store
is a no-op returning success; flush on a dirty store is exactly one
store_immediate of the cached value, which clears the dirty flag on
success and leaves the cache state untouched (still dirty, same value) on
failure. -/
theorem deferred_flush_semantics (w : World) (cfg : Config) (st : PState)
    (rc wc : Nat) (src : List Nat) :
    store_deferred st src =
      { cache := src, dirty := true, last_seq := st.last_seq } ∧
    (st.dirty = false → flush w cfg st rc wc = (ESP_OK, w, st, rc, wc)) ∧
    (st.dirty = true →
      flush w cfg st rc wc = store_immediate w cfg st rc wc st.cache) ∧
    (st.dirty = true → (flush w cfg st rc wc).1 = ESP_OK →
      (flush w cfg st rc wc).2.2.1.dirty = false ∧
      (flush w cfg st rc wc).2.2.1.cache = st.cache) ∧
    (st.dirty = true → (flush w cfg st rc wc).1 ≠ ESP_OK →
      (flush w cfg st rc wc).2.2.1 = st) := by
  refine ⟨rfl, ?_, ?_, ?_, ?_⟩
  · intro h
    unfold flush
    rw [h]
    rfl
  · intro h
    unfold flush
    rw [h]
    rfl
  · intro h hok
    have he : flush w cfg st rc wc = store_immediate w cfg st rc wc st.cache := by
      unfold flush
      rw [h]
      rfl
    rw [he] at hok ⊢
    by_cases hw0 : w.writeErr wc = 0
    · by_cases hw1 : w.writeErr (wc + 1) = 0
      · rw [store_immediate_success w cfg st rc wc st.cache hw0 hw1]
        exact ⟨rfl, rfl⟩
      · rw [store_immediate_fail2 w cfg st rc wc st.cache hw0 hw1] at hok
        exact absurd (by simpa [ESP_OK] using hok) hw1
    · rw [store_immediate_fail1 w cfg st rc wc st.cache hw0] at hok
      exact absurd (by simpa [ESP_OK] using hok) hw0
  · intro h hfail
    have he : flush w cfg st rc wc = store_immediate w cfg st rc wc st.cache := by
      unfold flush
      rw [h]
      rfl
    rw [he] at hfail ⊢
    exact store_immediate_fail_state w cfg st rc wc st.cache hfail

theorem deferred_flush_semantics_witness :
    (flush zeroWorld exCfg exSt 0 0 = (ESP_OK, zeroWorld, exSt, 0, 0)) ∧
    (flush zeroWorld exCfg dirtySt 0 0 =
      store_immediate zeroWorld exCfg dirtySt 0 0 dirtySt.cache) ∧
    ((flush failWriteWorld exCfg dirtySt 0 0).2.2.1 = dirtySt) :=
  ⟨(deferred_flush_semantics zeroWorld exCfg exSt 0 0 [0]).2.1 rfl,
   (deferred_flush_semantics zeroWorld exCfg dirtySt 0 0 [0]).2.2.1 rfl,
   (deferred_flush_semantics failWriteWorld exCfg dirtySt 0 0 [0]).2.2.2.2 rfl
     (by decide)⟩

/-- Claim C8: the table-driven crc32 of the source is the reference
CRC-32 (reflected polynomial 0xEDB88320, initial value 0xFFFFFFFF, final
XOR 0xFFFFFFFF) of its input bytes; as a pure function it is deterministic
in the input alone. -/
theorem crc32_matches_reference (bs : List Nat) (hb : ∀ b ∈ bs, b < 256) :
    crc32 bs = crc32_reference bs := by
  unfold crc32 crc32_reference
  rw [crc32Aux_eq_ref bs 0xFFFFFFFF hb]

theorem crc32_matches_reference_witness :
    crc32 [0x31, 0x32, 0x33, 0x34, 0x35, 0x36, 0x37, 0x38, 0x39] =
      crc32_reference [0x31, 0x32, 0x33, 0x34, 0x35, 0x36, 0x37, 0x38, 0x39] :=
  crc32_matches_reference _ (by decide)

/-- Claim C9: a load call is read-only with respect to the store
instance: for every outcome it leaves the backing store (no writes), the
in-memory cache state (value, dirty flag, remembered sequence) and the
write-call counter unchanged. -/
theorem load_is_readonly (w : World) (cfg : Config) (st : PState)
    (rc wc : Nat) (dst0 : List Nat) :
    (loadOp w cfg st rc wc dst0).2.1 = w ∧
    (loadOp w cfg st rc wc dst0).2.2.1 = st ∧
    (loadOp w cfg st rc wc dst0).2.2.2.2 = wc :=
  ⟨rfl, rfl, rfl⟩

/-- Claim C4: store_immediate's scan (with functioning reads) takes a slot
as candidate exactly when its header's magic and version match (len and
CRC are not checked); the next sequence number is the best candidate's seq
plus 1 in 32-bit arithmetic (1 when no candidate exists) and the target is
slot (best + 1) mod slot_count (slot 0 when no candidate exists). -/
theorem store_scan_candidates (w : World) (cfg : Config) (rc : Nat)
    (hreads : ∀ k, w.readErr k = 0) :
    ((∀ i, i < cfg.slots → ¬ candOk cfg (slotHdr w.mem cfg i)) →
      scanBest w cfg rc = none ∧ nextSeq w cfg rc = 1 ∧
      nextAddr w cfg rc = slotAddr cfg 0) ∧
    ((∃ i, i < cfg.slots ∧ candOk cfg (slotHdr w.mem cfg i)) →
      ∃ i, i < cfg.slots ∧ candOk cfg (slotHdr w.mem cfg i) ∧
        (∀ j, j < cfg.slots → candOk cfg (slotHdr w.mem cfg j) →
          (slotHdr w.mem cfg j).seq ≤ (slotHdr w.mem cfg i).seq) ∧
        nextSeq w cfg rc = ((slotHdr w.mem cfg i).seq + 1) % 2 ^ 32 ∧
        nextAddr w cfg rc = slotAddr cfg ((i + 1) % cfg.slots)) := by
  have hobs : ∀ j, obsHdr w cfg rc j = slotHdr w.mem cfg j :=
    fun j => obsHdr_of_readOk w cfg rc j (hreads (rc + j))
  rcases scanBest_spec w cfg rc with ⟨hnone, hnocand⟩ | ⟨i, hi, hcand, hsome, hmax⟩
  · constructor
    · intro _
      refine ⟨hnone, ?_, ?_⟩
      · unfold nextSeq
        rw [hnone]
      · unfold nextAddr
        rw [hnone]
        rw [slotAddr_zero]
    · rintro ⟨i, hi, hc⟩
      exact absurd ((hobs i).symm ▸ hc) (hnocand i hi)
  · constructor
    · intro hnone2
      exact absurd (hobs i ▸ hcand) (hnone2 i hi)
    · intro _
      refine ⟨i, hi, hobs i ▸ hcand, ?_, ?_, ?_⟩
      · intro j hj hcj
        have hle := hmax j hj ((hobs j).symm ▸ hcj)
        rwa [hobs j, hobs i] at hle
      · unfold nextSeq
        rw [hsome, hobs i]
      · unfold nextAddr
        rw [hsome]
        show ((slotAddr cfg i - cfg.base) / slotSize cfg + 1) % cfg.slots *
            slotSize cfg + cfg.base = slotAddr cfg ((i + 1) % cfg.slots)
        rw [slotAddr_div]
        unfold slotAddr
        ring

theorem store_scan_candidates_witness :
    ∃ i, i < exCfg.slots ∧ candOk exCfg (slotHdr oneWorld.mem exCfg i) ∧
      (∀ j, j < exCfg.slots → candOk exCfg (slotHdr oneWorld.mem exCfg j) →
        (slotHdr oneWorld.mem exCfg j).seq ≤ (slotHdr oneWorld.mem exCfg i).seq) ∧
      nextSeq oneWorld exCfg 0 = ((slotHdr oneWorld.mem exCfg i).seq + 1) % 2 ^ 32 ∧
      nextAddr oneWorld exCfg 0 = slotAddr exCfg ((i + 1) % exCfg.slots) :=
  (store_scan_candidates oneWorld exCfg 0 (fun _ => rfl)).2 ⟨0, by decide, by decide⟩

/-- Claim C10: store_immediate's scan discards the result of each header
read: a slot whose read fails is not skipped; the uninitialized buffer
contents (garbage) are decoded and compared against magic and version, and
when that garbage qualifies and carries the strictly largest seq it is
selected as the current best, determining the next sequence number and the
target slot. -/
theorem scan_ignores_read_failures (w : World) (cfg : Config) (rc i : Nat)
    (hi : i < cfg.slots) (hfail : w.readErr (rc + i) ≠ 0) :
    obsHdr w cfg rc i = decodeHeader (garbageBytes w (rc + i) headerSize) ∧
    (candOk cfg (obsHdr w cfg rc i) →
      (∀ j, j < cfg.slots → j ≠ i → candOk cfg (obsHdr w cfg rc j) →
        (obsHdr w cfg rc j).seq < (obsHdr w cfg rc i).seq) →
      scanBest w cfg rc = some (obsHdr w cfg rc i, slotAddr cfg i) ∧
      nextSeq w cfg rc = ((obsHdr w cfg rc i).seq + 1) % 2 ^ 32 ∧
      nextAddr w cfg rc = slotAddr cfg ((i + 1) % cfg.slots)) := by
  constructor
  · simp [obsHdr, hfail]
  · intro hcand hdom
    rcases scanBest_spec w cfg rc with ⟨hnone, hnocand⟩ | ⟨i2, hi2, hcand2, hsome, hmax⟩
    · exact absurd hcand (hnocand i hi)
    · have hii : i2 = i := by
        by_contra hne
        have h1 := hdom i2 hi2 hne hcand2
        have h2 := hmax i hi hcand
        omega
      subst hii
      refine ⟨hsome, ?_, ?_⟩
      · unfold nextSeq
        rw [hsome]
      · unfold nextAddr
        rw [hsome]
        show ((slotAddr cfg i2 - cfg.base) / slotSize cfg + 1) % cfg.slots *
            slotSize cfg + cfg.base = slotAddr cfg ((i2 + 1) % cfg.slots)
        rw [slotAddr_div]
        unfold slotAddr
        ring

theorem scan_ignores_read_failures_witness :
    scanBest garbageWorld gCfg 0 =
      some (obsHdr garbageWorld gCfg 0 0, slotAddr gCfg 0) ∧
    nextSeq garbageWorld gCfg 0 =
      ((obsHdr garbageWorld gCfg 0 0).seq + 1) % 2 ^ 32 ∧
    nextAddr garbageWorld gCfg 0 = slotAddr gCfg ((0 + 1) % gCfg.slots) :=
  (scan_ignores_read_failures garbageWorld gCfg 0 0 (by decide) (by decide)).2
    (by decide) (by decide)

/-- Claim C1 counterexample: starting from a backing store whose newest
record carries seq 2^32-1, store_immediate of the byte 9 succeeds (writing
seq 0 to the next slot) but an immediate load with no intervening writes
returns the old payload byte 5, not 9: the claim as stated fails at
sequence wraparound. -/
theorem store_load_wraparound_counterexample :
    (store_immediate wrapWorld exCfg exSt 0 0 [9]).1 = ESP_OK ∧
    (load (store_immediate wrapWorld exCfg exSt 0 0 [9]).2.1 exCfg 0 [0]).1 =
      ESP_OK ∧
    (load (store_immediate wrapWorld exCfg exSt 0 0 [9]).2.1 exCfg 0 [0]).2.1 =
      [5] ∧
    (load (store_immediate wrapWorld exCfg exSt 0 0 [9]).2.1 exCfg 0 [0]).2.1 ≠
      [9] := by
  decide

theorem store_then_load_witness :
    (load (store_immediate zeroWorld exCfg exSt 0 0 [42]).2.1 exCfg 0 [0]).1 =
      ESP_OK ∧
    (load (store_immediate zeroWorld exCfg exSt 0 0 [42]).2.1 exCfg 0 [0]).2.1 =
      [42] :=
  store_then_load zeroWorld exCfg exSt 0 0 0 [42] [0] (fun _ => rfl)
    (by decide) (by decide) (by decide) (by decide) (by decide)
    (by intro bh ba h
        have hn : scanBest zeroWorld exCfg 0 = none := by decide
        rw [hn] at h
        exact Option.noConfusion h)
    (by decide)

/-- Claim C6 counterexample: a backing store with a valid record in slot 0
whose final payload re-read fails: load completes its scan but returns the
propagated I/O error 0x103, which is neither success nor NotFound. -/
theorem load_propagates_final_read_error :
    validSlot finalFailWorld.mem exCfg 0 ∧
    (load finalFailWorld exCfg 0 [0]).1 = 0x103 ∧
    (load finalFailWorld exCfg 0 [0]).1 ≠ ESP_OK ∧
    (load finalFailWorld exCfg 0 [0]).1 ≠ ESP_ERR_NOT_FOUND := by
  decide

/-- Claim C7: corrupting any single payload byte of the slot just written
by a successful store_immediate (with functioning reads) makes that
slot's stored CRC differ from the freshly computed CRC while its structural header checks still pass, so load ignores the
slot: it returns NotFound when no valid slot remains, and otherwise the
payload of a maximal-seq valid slot, which is never the corrupted one. -/
theorem single_byte_corruption (w : World) (cfg : Config) (st : PState)
    (rc wc rc2 : Nat) (src dst0 : List Nat) (p b' : Nat) (w2 w3 : World)
    (hreads : ∀ k, w.readErr k = 0)
    (hver : cfg.version < 2 ^ 16) (hpsz : cfg.payloadSize < 2 ^ 32)
    (hslots : 0 < cfg.slots)
    (hlen : src.length = cfg.payloadSize) (hsrc : ∀ b ∈ src, b < 256)
    (hok : (store_immediate w cfg st rc wc src).1 = ESP_OK)
    (hp : p < cfg.payloadSize) (hb' : b' < 256) (hbne : b' ≠ src.getD p 0)
    (hw2 : w2 = (store_immediate w cfg st rc wc src).2.1)
    (hw3 : w3 = corruptByte w2 (nextAddr w cfg rc + headerSize + p) b') :
    ∃ t, t < cfg.slots ∧ nextAddr w cfg rc = slotAddr cfg t ∧
      structOk cfg (slotHdr w3.mem cfg t) ∧
      crc32 (slotPayload w3.mem cfg t) ≠ (slotHdr w3.mem cfg t).crc ∧
      ¬ validSlot w3.mem cfg t ∧
      ((∀ j, j < cfg.slots → ¬ validSlot w3.mem cfg j) →
        (load w3 cfg rc2 dst0).1 = ESP_ERR_NOT_FOUND ∧
        (load w3 cfg rc2 dst0).2.1 = dst0) ∧
      ((∃ j, j < cfg.slots ∧ validSlot w3.mem cfg j) →
        ∃ j, j < cfg.slots ∧ j ≠ t ∧ validSlot w3.mem cfg j ∧
          (∀ j2, j2 < cfg.slots → validSlot w3.mem cfg j2 →
            (slotHdr w3.mem cfg j2).seq ≤ (slotHdr w3.mem cfg j).seq) ∧
          (load w3 cfg rc2 dst0).1 = ESP_OK ∧
          (load w3 cfg rc2 dst0).2.1 = slotPayload w3.mem cfg j) := by
  by_cases hw0 : w.writeErr wc = 0
  case neg =>
    rw [store_immediate_fail1 w cfg st rc wc src hw0] at hok
    exact absurd (by simpa [ESP_OK] using hok) hw0
  by_cases hw1 : w.writeErr (wc + 1) = 0
  case neg =>
    rw [store_immediate_fail2 w cfg st rc wc src hw0 hw1] at hok
    exact absurd (by simpa [ESP_OK] using hok) hw1
  obtain ⟨t, ht, hN⟩ := store_target_addr w cfg rc hslots
  subst hw3
  subst hw2
  rw [store_immediate_success w cfg st rc wc src hw0 hw1, hN]
  simp only [corruptByte]
  obtain ⟨hhdr_t, hpay_t, hother⟩ := writes_slot_content w.mem cfg t
    (newHeader w cfg rc src) src hlen hsrc (newHeader_decode w cfg rc src hver hpsz)
  generalize hM : writeBytes (writeBytes w.mem (slotAddr cfg t + headerSize) src)
    (slotAddr cfg t) (encodeHeader (newHeader w cfg rc src)) = M at *
  generalize hM3 : writeBytes M (slotAddr cfg t + headerSize + p) [b'] = M3
  have hplen : p < src.length := by rw [hlen]; exact hp
  have hhdr3 : slotHdr M3 cfg t = newHeader w cfg rc src := by
    rw [← hhdr_t, ← hM3]
    unfold slotHdr hdrAt
    congr 1
    apply memBytes_writeBytes_disjoint
    left
    omega
  have hpay3 : slotPayload M3 cfg t = src.set p b' := by
    rw [← hM3]
    unfold slotPayload payloadBytesAt
    rw [memBytes_writeBytes_point M (slotAddr cfg t + headerSize)
      cfg.payloadSize p b' hp hb']
    unfold slotPayload payloadBytesAt at hpay_t
    rw [hpay_t]
  have hcrc3 : crc32 (slotPayload M3 cfg t) ≠ (slotHdr M3 cfg t).crc := by
    rw [hpay3, hhdr3]
    have hc : (newHeader w cfg rc src).crc = crc32 src := rfl
    rw [hc]
    exact crc32_set_ne src p b' hplen hsrc hb' hbne
  have hstruct3 : structOk cfg (slotHdr M3 cfg t) := by
    rw [hhdr3]
    exact ⟨rfl, rfl, rfl⟩
  have hinvalid : ¬ validSlot M3 cfg t := fun hv => hcrc3 hv.2
  have hreads3 : ∀ k, ({ w with mem := M3 } : World).readErr k = 0 :=
    fun k => hreads k
  have hspec := load_spec ({ w with mem := M3 }) cfg rc2 dst0 hreads3
  refine ⟨t, ht, rfl, hstruct3, hcrc3, hinvalid, ?_, ?_⟩
  · intro hnovalid
    exact hspec.1 hnovalid
  · rintro ⟨j0, hj0, hvj0⟩
    obtain ⟨j, hj, hvj, hmaxj, hres1, hres2⟩ := hspec.2 ⟨j0, hj0, hvj0⟩
    refine ⟨j, hj, ?_, hvj, hmaxj, hres1, hres2⟩
    intro hjt
    rw [hjt] at hvj
    exact hinvalid hvj

theorem single_byte_corruption_witness :
    ∃ t, t < exCfg.slots ∧ nextAddr zeroWorld exCfg 0 = slotAddr exCfg t ∧
      structOk exCfg (slotHdr (corruptByte
        (store_immediate zeroWorld exCfg exSt 0 0 [5]).2.1
        (nextAddr zeroWorld exCfg 0 + headerSize + 0) 9).mem exCfg t) ∧
      crc32 (slotPayload (corruptByte
        (store_immediate zeroWorld exCfg exSt 0 0 [5]).2.1
        (nextAddr zeroWorld exCfg 0 + headerSize + 0) 9).mem exCfg t) ≠
        (slotHdr (corruptByte
          (store_immediate zeroWorld exCfg exSt 0 0 [5]).2.1
          (nextAddr zeroWorld exCfg 0 + headerSize + 0) 9).mem exCfg t).crc ∧
      ¬ validSlot (corruptByte
        (store_immediate zeroWorld exCfg exSt 0 0 [5]).2.1
        (nextAddr zeroWorld exCfg 0 + headerSize + 0) 9).mem exCfg t ∧
      ((∀ j, j < exCfg.slots → ¬ validSlot (corruptByte
          (store_immediate zeroWorld exCfg exSt 0 0 [5]).2.1
          (nextAddr zeroWorld exCfg 0 + headerSize + 0) 9).mem exCfg j) →
        (load (corruptByte (store_immediate zeroWorld exCfg exSt 0 0 [5]).2.1
          (nextAddr zeroWorld exCfg 0 + headerSize + 0) 9) exCfg 0 [0]).1 =
          ESP_ERR_NOT_FOUND ∧
        (load (corruptByte (store_immediate zeroWorld exCfg exSt 0 0 [5]).2.1
          (nextAddr zeroWorld exCfg 0 + headerSize + 0) 9) exCfg 0 [0]).2.1 =
          [0]) ∧
      ((∃ j, j < exCfg.slots ∧ validSlot (corruptByte
          (store_immediate zeroWorld exCfg exSt 0 0 [5]).2.1
          (nextAddr zeroWorld exCfg 0 + headerSize + 0) 9).mem exCfg j) →
        ∃ j, j < exCfg.slots ∧ j ≠ t ∧ validSlot (corruptByte
            (store_immediate zeroWorld exCfg exSt 0 0 [5]).2.1
            (nextAddr zeroWorld exCfg 0 + headerSize + 0) 9).mem exCfg j ∧
          (∀ j2, j2 < exCfg.slots → validSlot (corruptByte
              (store_immediate zeroWorld exCfg exSt 0 0 [5]).2.1
              (nextAddr zeroWorld exCfg 0 + headerSize + 0) 9).mem exCfg j2 →
            (slotHdr (corruptByte
              (store_immediate zeroWorld exCfg exSt 0 0 [5]).2.1
              (nextAddr zeroWorld exCfg 0 + headerSize + 0) 9).mem exCfg j2).seq ≤
            (slotHdr (corruptByte
              (store_immediate zeroWorld exCfg exSt 0 0 [5]).2.1
              (nextAddr zeroWorld exCfg 0 + headerSize + 0) 9).mem exCfg j).seq) ∧
          (load (corruptByte (store_immediate zeroWorld exCfg exSt 0 0 [5]).2.1
            (nextAddr zeroWorld exCfg 0 + headerSize + 0) 9) exCfg 0 [0]).1 =
            ESP_OK ∧
          (load (corruptByte (store_immediate zeroWorld exCfg exSt 0 0 [5]).2.1
            (nextAddr zeroWorld exCfg 0 + headerSize + 0) 9) exCfg 0 [0]).2.1 =
            slotPayload (corruptByte
              (store_immediate zeroWorld exCfg exSt 0 0 [5]).2.1
              (nextAddr zeroWorld exCfg 0 + headerSize + 0) 9).mem exCfg j) :=
  single_byte_corruption zeroWorld exCfg exSt 0 0 0 [5] [0] 0 9 _ _
    (fun _ => rfl) (by decide) (by decide) (by decide) (by decide) (by decide)
    (by decide) (by decide) (by decide) (by decide) rfl rfl

end FramStore
